import Mathlib

/-
Verification development for the blender-ikea-browser add-on.

The embedding models:
  * JSON values (`Json`), HTTP payload bytes (`Bytes`: either bytes that decode
    to a JSON value, or bytes that fail to decode), Python exceptions (`Exc`);
  * the on-disk cache as a path-indexed store (`FS`);
  * the network as a function from the full request URL to either an error
    message or response bytes (`Net`); every function that may touch the
    network also returns the list of URLs it requested, so that claims about
    "no network fetch" are statable;
  * `ikea_lib.py`: `IkeaApiWrapper._get`, `_get_json`, `format`, `search`,
    `get_pip`, `get_thumbnail`, `get_model`;
  * `__init__.py`: the Blender scene as a list of objects with identity,
    name, type, parent and custom properties, plus `IkeaImportOperator.execute`
    and the panel/search entry points.

Environment boundaries that are abstracted rather than translated: real byte
strings and the real JSON grammar (replaced by `Bytes`/`jsonLoads`, faithful to
the fact that each byte string either decodes to a unique JSON value or fails),
directory creation (`mkdir` has no observable effect in a flat path-indexed
store), HTTP headers (carried but not interpreted by the network model),
logging, Blender UI layout calls, object transforms and the 3D-cursor location
(lines 124-132 of `__init__.py`, not referenced by any claim).
-/

inductive Json where
  | null : Json
  | bool (b : Bool) : Json
  | num (n : Int) : Json
  | str (s : String) : Json
  | arr (items : List Json) : Json
  | obj (fields : List (String × Json)) : Json

/-- Python exceptions distinguished by the code under test. -/
inductive Exc where
  | ikeaException (msg : String) : Exc
  | jsonDecodeError (msg : String) : Exc
  | keyError (key : String) : Exc
  | typeError (msg : String) : Exc
  | attributeError (msg : String) : Exc
  | urlError (msg : String) : Exc
  | fileNotFoundError (msg : String) : Exc

/-- The string used when a Python exception is interpolated into an
f-string (`f"...: {e}"`). -/
def Exc.message : Exc → String
  | .ikeaException m => m
  | .jsonDecodeError m => m
  | .keyError k => k
  | .typeError m => m
  | .attributeError m => m
  | .urlError m => m
  | .fileNotFoundError m => m

/-- Whether an exception is an `IkeaException`. -/
def Exc.isIkea : Exc → Bool
  | .ikeaException _ => true
  | _ => false

/-- HTTP payload bytes: every byte string either decodes to exactly one JSON
value or fails to decode.  `invalid tag` stands for any byte string that is
not valid JSON. -/
inductive Bytes where
  | json (j : Json) : Bytes
  | invalid (tag : String) : Bytes

/-- Python `json.loads`. -/
def jsonLoads : Bytes → Except Exc Json
  | .json j => .ok j
  | .invalid t => .error (.jsonDecodeError ("Expecting value: " ++ t))

/-- Python `json.dumps` produces bytes that decode back to the same value. -/
def jsonDumps (j : Json) : Bytes := .json j

/-- Python `d[k]` on a decoded JSON value: `KeyError` for a dict without the
key, `TypeError` when subscripting a non-dict with a string key. -/
def Json.getKey : Json → String → Except Exc Json
  | .obj fields, k =>
      match fields.lookup k with
      | some v => .ok v
      | none => .error (.keyError k)
  | _, _ => .error (.typeError "object is not subscriptable by str")

/-- Python `k in d` for a decoded JSON dict. -/
def Json.hasKey : Json → String → Bool
  | .obj fields, k => (fields.lookup k).isSome
  | _, _ => false

/-- Python `j == s` for a string literal `s`: false for non-strings. -/
def Json.isStrEq : Json → String → Bool
  | .str t, s => t == s
  | _, _ => false

/-- Python truthiness of a decoded JSON value. -/
def Json.pyTruthy : Json → Bool
  | .null => false
  | .bool b => b
  | .num n => n != 0
  | .str s => s != ""
  | .arr items => !items.isEmpty
  | .obj fields => !fields.isEmpty

/-- Python `for x in j`: lists yield elements, dicts yield their keys,
strings yield one-character strings, other values raise `TypeError`. -/
def Json.pyIter : Json → Except Exc (List Json)
  | .arr items => .ok items
  | .obj fields => .ok (fields.map (fun kv => Json.str kv.1))
  | .str s => .ok (s.toList.map (fun ch => Json.str (String.mk [ch])))
  | _ => .error (.typeError "object is not iterable")

/-- The on-disk cache: a path-indexed store of byte contents.  Writing conses
a new binding; `read` returns the most recent one. -/
structure FS where
  files : List (String × Bytes)

def FS.read (fs : FS) (p : String) : Option Bytes :=
  fs.files.lookup p

/-- `pathlib.Path.exists`. -/
def FS.pathExists (fs : FS) (p : String) : Bool :=
  (fs.read p).isSome

/-- `write_text` / `write_bytes`. -/
def FS.write (fs : FS) (p : String) (b : Bytes) : FS :=
  ⟨(p, b) :: fs.files⟩

/-- The network: maps a full request URL to an error message (the exception
raised by `urllib.request.urlopen`) or to response bytes. -/
def Net : Type := String → Except String Bytes

/-- `urllib.parse.urlencode` (percent-escaping abstracted away). -/
def urlencode : List (String × String) → String
  | [] => ""
  | [(k, v)] => k ++ "=" ++ v
  | (k, v) :: rest => k ++ "=" ++ v ++ "&" ++ urlencode rest

structure IkeaApiWrapper where
  country : String
  language : String
  cache_dir : String

/-- `IkeaApiWrapper._get` (ikea_lib.py lines 22-37): request
`url + "?" + urlencode(params)`; any failure is wrapped into
`IkeaException(f"Error fetching {url}: {e}")`.  Returns the result together
with the list of URLs requested.  Headers are carried but not interpreted
by the network model. -/
def IkeaApiWrapper._get (net : Net) (url : String) (params : List (String × String))
    (_headers : List (String × String)) : Except Exc Bytes × List String :=
  let full := url ++ "?" ++ urlencode params
  match net full with
  | .ok b => (.ok b, [full])
  | .error e => (.error (.ikeaException ("Error fetching " ++ url ++ ": " ++ e)), [full])

/-- `IkeaApiWrapper._get_json` (lines 39-46): `json.loads` of `_get`;
a decode failure propagates to the caller unwrapped. -/
def IkeaApiWrapper._get_json (net : Net) (url : String) (params : List (String × String))
    (headers : List (String × String)) : Except Exc Json × List String :=
  match IkeaApiWrapper._get net url params headers with
  | (.ok b, log) =>
      match jsonLoads b with
      | .ok j => (.ok j, log)
      | .error e => (.error e, log)
  | (.error e, log) => (.error e, log)

/-- Python slice `s[a:b]` (out-of-range indices are clamped, never raising). -/
def pySlice (s : String) (a b : Nat) : String :=
  String.mk ((s.toList.drop a).take (b - a))

/-- `IkeaApiWrapper.format` (lines 48-50): strip non-digits, then
`itemNo[0:3] + "." + itemNo[3:6] + "." + itemNo[6:8]`. -/
def IkeaApiWrapper.format (_w : IkeaApiWrapper) (itemNo : String) : String :=
  let digits := String.mk (itemNo.toList.filter Char.isDigit)
  pySlice digits 0 3 ++ "." ++ pySlice digits 3 6 ++ "." ++ pySlice digits 6 8

/-- Search endpoint URL (line 55). -/
def searchUrl (w : IkeaApiWrapper) : String :=
  "https://sik.search.blue.cdtapps.com/" ++ w.country ++ "/" ++ w.language ++
    "/search-result-page"

/-- Search query parameters (lines 56-64). -/
def searchParams (query : String) : List (String × String) :=
  [("autocorrect", "true"), ("subcategories-style", "tree-navigation"),
   ("types", "PRODUCT"), ("q", query), ("size", "24"), ("c", "sr"), ("v", "20210322")]

/-- The loop body of `IkeaApiWrapper.search` (lines 72-97), which runs outside
the try/except: skip products whose `itemType` is not `"ART"`; for products
missing one of the four required fields, the log statement evaluates
`p["name"]` (raising `KeyError` when `name` is also missing) and the product
is skipped; otherwise emit a dict of exactly the four fields. -/
def searchLoop : List Json → Except Exc (List Json)
  | [] => .ok []
  | i :: rest =>
      match i.getKey "product" with
      | .error e => .error e
      | .ok p =>
          match p.getKey "itemType" with
          | .error e => .error e
          | .ok itemType =>
              if !(itemType.isStrEq "ART") then
                searchLoop rest
              else
                let missing := (["itemNo", "mainImageUrl", "mainImageAlt", "pipUrl"].filter
                  (fun field => !(p.hasKey field)))
                if missing.isEmpty then
                  match p.getKey "itemNo", p.getKey "mainImageUrl",
                      p.getKey "mainImageAlt", p.getKey "pipUrl" with
                  | .ok itemNo, .ok mainImageUrl, .ok mainImageAlt, .ok pipUrl =>
                      (match searchLoop rest with
                       | .error e => .error e
                       | .ok restResults =>
                           .ok (Json.obj [("itemNo", itemNo),
                             ("mainImageUrl", mainImageUrl),
                             ("mainImageAlt", mainImageAlt),
                             ("pipUrl", pipUrl)] :: restResults))
                  | .error e, _, _, _ => .error e
                  | _, .error e, _, _ => .error e
                  | _, _, .error e, _ => .error e
                  | _, _, _, .error e => .error e
                else
                  match p.getKey "name" with
                  | .error e => .error e
                  | .ok _name => searchLoop rest

/-- Navigation to `search_results["searchResultPage"]["products"]["main"]["items"]`
followed by iteration (line 73), all outside the try/except. -/
def searchCollect (sr : Json) : Except Exc (List Json) :=
  match sr.getKey "searchResultPage" with
  | .error e => .error e
  | .ok a =>
      match a.getKey "products" with
      | .error e => .error e
      | .ok b =>
          match b.getKey "main" with
          | .error e => .error e
          | .ok c =>
              match c.getKey "items" with
              | .error e => .error e
              | .ok itemsJ =>
                  match itemsJ.pyIter with
                  | .error e => .error e
                  | .ok items => searchLoop items

/-- `IkeaApiWrapper.search` (lines 52-97).  The try/except covers only the
`_get_json` call; its failures become
`IkeaException(f"Error searching for {query}: {e}")`. -/
def IkeaApiWrapper.search (w : IkeaApiWrapper) (net : Net) (query : String) :
    Except Exc (List Json) × List String :=
  match IkeaApiWrapper._get_json net (searchUrl w) (searchParams query) [] with
  | (.error e, log) =>
      (.error (.ikeaException ("Error searching for " ++ query ++ ": " ++ e.message)), log)
  | (.ok sr, log) => (searchCollect sr, log)

def pipCachePath (w : IkeaApiWrapper) (itemNo : String) : String :=
  w.cache_dir ++ "/" ++ itemNo ++ "/pip.json"

/-- PIP endpoint URL (line 109); `itemNo[5:]` is a clamped slice. -/
def pipUrlOf (w : IkeaApiWrapper) (itemNo : String) : String :=
  "https://www.ikea.com/" ++ w.country ++ "/" ++ w.language ++ "/products/" ++
    (itemNo.drop 5) ++ "/" ++ itemNo ++ ".json"

/-- `IkeaApiWrapper.get_pip` (lines 99-117).  When the cache file is missing,
the download, decode and write run inside try/except and failures become
`IkeaException`; the final `json.loads(cache_path.read_text())` on line 117
runs outside the try/except in both branches. -/
def IkeaApiWrapper.get_pip (w : IkeaApiWrapper) (net : Net) (fs : FS) (itemNo : String) :
    Except Exc Json × FS × List String :=
  let cache_path := pipCachePath w itemNo
  let dl : Except Exc FS × List String :=
    if fs.pathExists cache_path then (.ok fs, [])
    else
      match IkeaApiWrapper._get_json net (pipUrlOf w itemNo) [] [] with
      | (.ok data, log) => (.ok (fs.write cache_path (jsonDumps data)), log)
      | (.error e, log) =>
          (.error (.ikeaException
            ("Error downloading PIP for #" ++ itemNo ++ ": " ++ e.message)), log)
  match dl with
  | (.error e, log) => (.error e, fs, log)
  | (.ok fs2, log) =>
      match fs2.read cache_path with
      | none => (.error (.fileNotFoundError cache_path), fs2, log)
      | some b =>
          match jsonLoads b with
          | .ok j => (.ok j, fs2, log)
          | .error e => (.error e, fs2, log)

def thumbCachePath (w : IkeaApiWrapper) (itemNo : String) : String :=
  w.cache_dir ++ "/" ++ itemNo ++ "/thumbnail.jpg"

/-- `IkeaApiWrapper.get_thumbnail` (lines 119-136): cache hit returns the path
with no network access; otherwise `_get(url)` (note `_get` appends `"?"`),
write, and return the path; failures become `IkeaException`. -/
def IkeaApiWrapper.get_thumbnail (w : IkeaApiWrapper) (net : Net) (fs : FS)
    (itemNo url : String) : Except Exc String × FS × List String :=
  let cache_path := thumbCachePath w itemNo
  if fs.pathExists cache_path then (.ok cache_path, fs, [])
  else
    match IkeaApiWrapper._get net url [] [] with
    | (.ok data, log) => (.ok cache_path, fs.write cache_path data, log)
    | (.error e, log) =>
        (.error (.ikeaException
          ("Error downloading thumbnail for #" ++ itemNo ++ ": " ++ e.message)), fs, log)

def modelCachePath (w : IkeaApiWrapper) (itemNo : String) : String :=
  w.cache_dir ++ "/" ++ itemNo ++ "/model.glb"

def roteraExistsUrl (w : IkeaApiWrapper) (itemNo : String) : String :=
  "https://web-api.ikea.com/" ++ w.country ++ "/" ++ w.language ++
    "/rotera/data/exists/" ++ itemNo

def roteraModelUrl (w : IkeaApiWrapper) (itemNo : String) : String :=
  "https://web-api.ikea.com/" ++ w.country ++ "/" ++ w.language ++
    "/rotera/data/model/" ++ itemNo

def roteraHeaders : List (String × String) :=
  [("X-Client-Id", "4863e7d2-1428-4324-890b-ae5dede24fc6")]

/-- `IkeaApiWrapper.get_model` (lines 138-171): cache hit returns the path
with no network access; otherwise the existence check, metadata fetch and the
raw `urlopen(rotera_data["modelUrl"])` run inside try/except, and every
failure (including the inner `raise IkeaException("No model available...")`)
is wrapped into `IkeaException(f"Error downloading model for #{itemNo}: {e}")`. -/
def IkeaApiWrapper.get_model (w : IkeaApiWrapper) (net : Net) (fs : FS) (itemNo : String) :
    Except Exc String × FS × List String :=
  let cache_path := modelCachePath w itemNo
  if fs.pathExists cache_path then (.ok cache_path, fs, [])
  else
    let body : Except Exc FS × List String :=
      match IkeaApiWrapper._get_json net (roteraExistsUrl w itemNo) [] roteraHeaders with
      | (.error e, log1) => (.error e, log1)
      | (.ok rotera_exists, log1) =>
          match rotera_exists.getKey "exists" with
          | .error e => (.error e, log1)
          | .ok ex =>
              if !ex.pyTruthy then
                (.error (.ikeaException ("No model available for #" ++ itemNo)), log1)
              else
                match IkeaApiWrapper._get_json net (roteraModelUrl w itemNo) [] roteraHeaders with
                | (.error e, log2) => (.error e, log1 ++ log2)
                | (.ok rotera_data, log2) =>
                    match rotera_data.getKey "modelUrl" with
                    | .error e => (.error e, log1 ++ log2)
                    | .ok (.str murl) =>
                        (match net murl with
                         | .ok data => (.ok (fs.write cache_path data), log1 ++ log2 ++ [murl])
                         | .error e => (.error (.urlError e), log1 ++ log2 ++ [murl]))
                    | .ok _ => (.error (.typeError "urlopen expected a str url"), log1 ++ log2)
    match body with
    | (.ok fs2, log) => (.ok cache_path, fs2, log)
    | (.error e, log) =>
        (.error (.ikeaException
          ("Error downloading model for #" ++ itemNo ++ ": " ++ e.message)), fs, log)

/-
The Blender side (`__init__.py`).  A scene object carries a stable identity
`oid` (object identity in Python), a name, a type string (`"MESH"`,
`"EMPTY"`, ...), an optional parent (by identity) and its custom properties.
`bpy.data.objects` is the scene list.
-/

structure BObj where
  oid : Nat
  name : String
  otype : String
  parent : Option Nat
  props : List (String × String)
  deriving DecidableEq

abbrev Scene := List BObj

/-- Look an object up by identity. -/
def findObj (s : Scene) (i : Nat) : Option BObj :=
  s.find? (fun o => o.oid == i)

/-- `bpy.data.objects.get(name)`. -/
def getByName (s : Scene) (n : String) : Option BObj :=
  s.find? (fun o => o.name == n)

/-- `obj.parent = p`. -/
def setParent (s : Scene) (i : Nat) (p : Option Nat) : Scene :=
  s.map (fun o => if o.oid == i then { o with parent := p } else o)

/-- `obj.name = n`. -/
def setName (s : Scene) (i : Nat) (n : String) : Scene :=
  s.map (fun o => if o.oid == i then { o with name := n } else o)

/-- `obj["k"] = v`. -/
def setProp (s : Scene) (i : Nat) (k v : String) : Scene :=
  s.map (fun o =>
    if o.oid == i then { o with props := (k, v) :: o.props.filter (fun kv => kv.1 != k) }
    else o)

/-- `bpy.data.objects.remove(obj)`: the object is deleted and every reference
to it is cleared, so children of the removed object lose their parent. -/
def removeObj (s : Scene) (i : Nat) : Scene :=
  (s.filter (fun o => o.oid != i)).map
    (fun o => if o.parent == some i then { o with parent := none } else o)

/-- The identities of the ancestors of an object (`Object.parent_recursive`),
fuelled to keep the definition total; `s.length + 1` fuel is enough for any
cycle-free scene. -/
def parentChainIds (s : Scene) : BObj → Nat → List Nat
  | _, 0 => []
  | o, fuel + 1 =>
      match o.parent with
      | none => []
      | some p =>
          match findObj s p with
          | none => [p]
          | some po => p :: parentChainIds s po fuel

/-- `Object.children_recursive`: all objects having the given object among
their recursive parents, in scene order. -/
def children_recursive (s : Scene) (topId : Nat) : List BObj :=
  s.filter (fun o => (parentChainIds s o (s.length + 1)).contains topId)

/-- `top = bpy.context.object; while top.parent: top = top.parent`
(lines 93-95), fuelled; `none` models non-termination on a parent cycle or a
dangling parent reference, neither of which Blender can produce. -/
def climbTop (s : Scene) : BObj → Nat → Option BObj
  | _, 0 => none
  | o, fuel + 1 =>
      match o.parent with
      | none => some o
      | some p =>
          match findObj s p with
          | none => none
          | some po => climbTop s po fuel

/-- One iteration of the flattening loop (lines 99-103): meshes are
re-parented to the top object, empties are removed. -/
def flattenStep (topId : Nat) (s : Scene) (i : Nat) : Scene :=
  match findObj s i with
  | none => s
  | some o =>
      let s1 := if o.otype == "MESH" then setParent s i (some topId) else s
      if o.otype == "EMPTY" then removeObj s1 i else s1

/-- The flattening loop over the snapshot of `top.children_recursive`. -/
def flattenAll (topId : Nat) (s : Scene) (ids : List Nat) : Scene :=
  ids.foldl (flattenStep topId) s

/-- The tagging loop (lines 107-108): set `obj["ikeaItemNo"]` on
`[top] + top.children_recursive`. -/
def tagAll (s : Scene) (ids : List Nat) (itemNo : String) : Scene :=
  ids.foldl (fun sc i => setProp sc i "ikeaItemNo" itemNo) s

/-- Structurally recursive decimal digits of a natural number (little-endian),
used to model Python `str(n)` for the `f"{base_name} ({n+1})"` rename. -/
def decDigitsAux : Nat → Nat → List Nat
  | _, 0 => []
  | 0, _ + 1 => []
  | fuel + 1, n + 1 => ((n + 1) % 10) :: decDigitsAux fuel ((n + 1) / 10)

def decDigits (n : Nat) : List Nat := decDigitsAux n n

/-- Python `str(n)` for a natural number: standard decimal rendering. -/
def decimalStr (n : Nat) : String :=
  if n = 0 then "0" else String.mk ((decDigits n).reverse.map Nat.digitChar)

/-- The k-th candidate name tried by the dedup loop (lines 113-117):
candidate 0 is the PIP name itself, candidate k is `f"{base_name} ({k+1})"`. -/
def candName (base : String) (k : Nat) : String :=
  if k = 0 then base else base ++ " (" ++ decimalStr (k + 1) ++ ")"

/-- The `while bpy.data.objects.get(maybe_name)` loop (lines 114-117),
fuelled; on entry `maybe` is candidate `n - 1`.  Enough fuel always exists
because the scene holds finitely many names (see `pickName_spec`). -/
def pickNameLoop (s : Scene) (base : String) : Nat → Nat → String → String
  | _, 0, maybe => maybe
  | n, fuel + 1, maybe =>
      if (getByName s maybe).isSome then
        pickNameLoop s base (n + 1) fuel (base ++ " (" ++ decimalStr (n + 1) ++ ")")
      else maybe

/-- The deduplicated name picked for the top object (lines 112-117). -/
def pickName (s : Scene) (base : String) : String :=
  pickNameLoop s base 1 (s.length + 1) base

/-- The child rename loop (lines 119-120): the n-th entry of the
`children_recursive` snapshot is renamed to `f"{top.name} Mesh {n+1}"`,
reading the top object's name at each iteration. -/
def renameChildren (s : Scene) (topId : Nat) (ids : List Nat) : Scene :=
  ids.enum.foldl
    (fun sc ni =>
      match findObj sc topId with
      | some topo => setName sc ni.2 (topo.name ++ " Mesh " ++ decimalStr (ni.1 + 1))
      | none => sc)
    s

/-- The scene-normalization part of `IkeaImportOperator.execute`
(lines 93-120) run on the post-import scene and selection: find the top
object, flatten, tag, rename.  Returns the scene reached together with the
exception (if any) that escaped; the transform/cursor statements on
lines 124-132 do not touch the modelled state.  A non-string PIP `name`
raises `TypeError` inside `bpy.data.objects.get` before any rename. -/
def executeNormalize (s : Scene) (sel : Option Nat) (itemNo : String) (pip : Json) :
    Scene × Option Exc :=
  match sel with
  | none => (s, some (.attributeError "NoneType object has no attribute parent"))
  | some selId =>
      match findObj s selId with
      | none => (s, some (.attributeError "selected object not in scene"))
      | some selObj =>
          match climbTop s selObj (s.length + 1) with
          | none => (s, some (.attributeError "parent cycle"))
          | some top =>
              let descIds := (children_recursive s top.oid).map (fun o => o.oid)
              let s1 := flattenAll top.oid s descIds
              let tagIds := top.oid :: (children_recursive s1 top.oid).map (fun o => o.oid)
              let s2 := tagAll s1 tagIds itemNo
              match pip.getKey "name" with
              | .error e => (s2, some e)
              | .ok (.str base_name) =>
                  let maybe_name := pickName s2 base_name
                  let s3 := setName s2 top.oid maybe_name
                  let childIds := (children_recursive s3 top.oid).map (fun o => o.oid)
                  (renameChildren s3 top.oid childIds, none)
              | .ok _ => (s2, some (.typeError "bpy_prop_collection.get expected a str"))

inductive OpReturn where
  | FINISHED : OpReturn
  | CANCELLED : OpReturn
  deriving DecidableEq

/-- The body of the try block of `IkeaImportOperator.execute` (lines 76-132):
fetch the PIP, fetch the model, import it (`usd` models
`bpy.ops.wm.usd_import`, which replaces the scene and the selection), then
normalize.  Returns the escaped exception (if any), the cache, the scene and
the requested URLs. -/
def executeTry (w : IkeaApiWrapper) (net : Net) (usd : String → Scene → Scene × Option Nat)
    (fs : FS) (s : Scene) (itemNo : String) :
    Option Exc × FS × Scene × List String :=
  match w.get_pip net fs itemNo with
  | (.error e, fs1, log1) => (some e, fs1, s, log1)
  | (.ok pip, fs1, log1) =>
      match w.get_model net fs1 itemNo with
      | (.error e, fs2, log2) => (some e, fs2, s, log1 ++ log2)
      | (.ok path, fs2, log2) =>
          let imported := usd path s
          let norm := executeNormalize imported.1 imported.2 itemNo pip
          (norm.2, fs2, norm.1, log1 ++ log2)

structure ExecOut where
  ret : Except Exc OpReturn
  reports : List (String × String)
  fs : FS
  scene : Scene
  fetched : List String

/-- `IkeaImportOperator.execute` (lines 71-135): without online access it
reports an error and returns `{"CANCELLED"}` touching nothing; otherwise it
runs the try block, catches `IkeaException` (and only `IkeaException`) by
reporting its message at ERROR level, and returns `{"FINISHED"}`.  An
`Except.error` in `ret` models an exception escaping `execute` itself. -/
def IkeaImportOperator.execute (online : Bool) (w : IkeaApiWrapper) (net : Net)
    (usd : String → Scene → Scene × Option Nat) (fs : FS) (s : Scene) (itemNo : String) :
    ExecOut :=
  if !online then
    { ret := .ok .CANCELLED,
      reports := [("ERROR", "IKEA Browser requires online access")],
      fs := fs, scene := s, fetched := [] }
  else
    match executeTry w net usd fs s itemNo with
    | (none, fs2, s2, log) =>
        { ret := .ok .FINISHED, reports := [], fs := fs2, scene := s2, fetched := log }
    | (some (.ikeaException m), fs2, s2, log) =>
        { ret := .ok .FINISHED, reports := [("ERROR", m)], fs := fs2, scene := s2,
          fetched := log }
    | (some e, fs2, s2, log) =>
        { ret := .error e, reports := [], fs := fs2, scene := s2, fetched := log }

/-- The loaded-previews collection `thumbs` (`bpy.utils.previews`), mapping an
item number to its icon id. -/
abbrev Thumbs := List (String × Nat)

/-- `_get_thumbnail_icon` (`__init__.py` lines 17-27): a loaded preview is
returned directly; otherwise, without online access it raises `IkeaException`
without touching the network or the disk cache; otherwise it downloads (or
reads from the disk cache) and loads the preview.  The icon id handed out by
the host is modelled as the next counter value. -/
def _get_thumbnail_icon (online : Bool) (w : IkeaApiWrapper) (net : Net) (fs : FS)
    (thumbs : Thumbs) (itemNo url : String) :
    Except Exc Nat × FS × Thumbs × List String :=
  match thumbs.lookup itemNo with
  | some icon => (.ok icon, fs, thumbs, [])
  | none =>
      if !online then
        (.error (.ikeaException "Cannot load thumbnail without internet access"),
         fs, thumbs, [])
      else
        match w.get_thumbnail net fs itemNo url with
        | (.error e, fs1, log) => (.error e, fs1, thumbs, log)
        | (.ok _filename, fs1, log) =>
            let icon := thumbs.length + 1
            (.ok icon, fs1, (itemNo, icon) :: thumbs, log)

/-- `_update_search` (lines 215-220): with online access the global result
list becomes the search result, otherwise it is emptied without any fetch. -/
def _update_search (online : Bool) (w : IkeaApiWrapper) (net : Net) (query : String) :
    Except Exc (List Json) × List String :=
  if online then w.search net query
  else (.ok [], [])

/-- The body of the result grid of `IkeaBrowserPanel.draw` (lines 160-166):
for each search result, read its alt text and request its thumbnail icon. -/
def browserDrawLoop (online : Bool) (w : IkeaApiWrapper) (net : Net) :
    List Json → FS → Thumbs → Except Exc Unit × FS × Thumbs × List String
  | [], fs, th => (.ok (), fs, th, [])
  | r :: rest, fs, th =>
      match r.getKey "mainImageAlt" with
      | .error e => (.error e, fs, th, [])
      | .ok _alt =>
          match r.getKey "itemNo", r.getKey "mainImageUrl" with
          | .ok (.str itemNo), .ok (.str url) =>
              match _get_thumbnail_icon online w net fs th itemNo url with
              | (.error e, fs1, th1, log) => (.error e, fs1, th1, log)
              | (.ok _icon, fs1, th1, log) =>
                  match browserDrawLoop online w net rest fs1 th1 with
                  | (res, fs2, th2, log2) => (res, fs2, th2, log ++ log2)
          | .error e, _ => (.error e, fs, th, [])
          | _, .error e => (.error e, fs, th, [])
          | _, _ => (.error (.typeError "expected str"), fs, th, [])

/-- `IkeaBrowserPanel.draw` (lines 151-166): without online access only a
label is drawn and nothing is fetched. -/
def IkeaBrowserPanel.draw (online : Bool) (w : IkeaApiWrapper) (net : Net)
    (results : List Json) (fs : FS) (thumbs : Thumbs) :
    Except Exc Unit × FS × Thumbs × List String :=
  if !online then (.ok (), fs, thumbs, [])
  else browserDrawLoop online w net results fs thumbs

/-- `IkeaProductPanel.poll` (lines 181-183): the selected object exists and
its `ikeaItemNo` property is truthy. -/
def IkeaProductPanel.poll (obj : Option BObj) : Bool :=
  match obj with
  | none => false
  | some o =>
      match o.props.lookup "ikeaItemNo" with
      | none => false
      | some v => v != ""

/-- `IkeaProductPanel.draw` (lines 185-212): show the formatted item number;
without online access stop there (fetching nothing); otherwise fetch the PIP
and the thumbnail icon and read the detail fields.  A missing `ikeaItemNo`
makes `ikea.format(None)` raise `TypeError` inside `re.sub`. -/
def IkeaProductPanel.draw (online : Bool) (w : IkeaApiWrapper) (net : Net) (fs : FS)
    (thumbs : Thumbs) (obj : BObj) :
    Except Exc Unit × FS × Thumbs × List String :=
  match obj.props.lookup "ikeaItemNo" with
  | none => (.error (.typeError "expected string or bytes-like object"), fs, thumbs, [])
  | some itemNo =>
      let _shown := w.format itemNo
      if !online then (.ok (), fs, thumbs, [])
      else
        match w.get_pip net fs itemNo with
        | (.error e, fs1, log1) => (.error e, fs1, thumbs, log1)
        | (.ok pip, fs1, log1) =>
            match (do let mi ← pip.getKey "mainImage"; mi.getKey "url") with
            | .error e => (.error e, fs1, thumbs, log1)
            | .ok (.str url) =>
                match _get_thumbnail_icon online w net fs1 thumbs itemNo url with
                | (.error e, fs2, th2, log2) => (.error e, fs2, th2, log1 ++ log2)
                | (.ok _icon, fs2, th2, log2) =>
                    match (do let _a ← pip.getKey "name"; let _b ← pip.getKey "price";
                              let _c ← pip.getKey "styleGroup"; let _d ← pip.getKey "typeName";
                              pip.getKey "pipUrl") with
                    | .error e => (.error e, fs2, th2, log1 ++ log2)
                    | .ok _ => (.ok (), fs2, th2, log1 ++ log2)
            | .ok _ => (.error (.typeError "urlopen expected a str url"), fs1, thumbs, log1)

/-
Concrete instances used by witnesses and counterexamples, and small helper
definitions used by theorem statements.
-/

/-- The digit characters of a string, in order. -/
def digitsOf (s : String) : List Char :=
  s.toList.filter Char.isDigit

/-- Whether a result is an error carrying an `IkeaException`. -/
def resultIsIkeaErr {α : Type} : Except Exc α → Bool
  | .error e => e.isIkea
  | .ok _ => false

/-- A wrapper instance with the default country/language and cache dir. -/
def wEx : IkeaApiWrapper := ⟨"ie", "en", "cache"⟩

/-- A network on which every request fails. -/
def netDead : Net := fun _ => .error "network unreachable"

/-- An import stub that leaves the scene unchanged and selects nothing. -/
def usd0 : String → Scene → Scene × Option Nat := fun _ sc => (sc, none)

def fsEmpty : FS := ⟨[]⟩

/-- A cache holding a corrupt (undecodable) `pip.json` for item 123. -/
def fsCorrupt : FS := ⟨[(pipCachePath wEx "123", Bytes.invalid "partial")]⟩

/-- A cache holding a thumbnail file for item 123. -/
def fsThumb : FS := ⟨[(thumbCachePath wEx "123", Bytes.invalid "jpegdata")]⟩

/-- A tagged mesh object. -/
def objTagged : BObj := ⟨1, "Foo", "MESH", none, [("ikeaItemNo", "123")]⟩

/-- Modelled from the claim text of C8 (the spec side of the refinement):
keep, in response order, exactly the products with `itemType` equal to
`"ART"` that contain all four of `itemNo`, `mainImageUrl`, `mainImageAlt`
and `pipUrl`, each mapped to a dictionary of exactly those four fields;
silently drop every other product. -/
def searchSpecFilter (items : List Json) : List Json :=
  items.filterMap (fun i =>
    match i.getKey "product" with
    | .error _ => none
    | .ok p =>
        match p.getKey "itemType" with
        | .error _ => none
        | .ok itemType =>
            if itemType.isStrEq "ART" && p.hasKey "itemNo" && p.hasKey "mainImageUrl"
                && p.hasKey "mainImageAlt" && p.hasKey "pipUrl" then
              match p.getKey "itemNo", p.getKey "mainImageUrl",
                  p.getKey "mainImageAlt", p.getKey "pipUrl" with
              | .ok a, .ok b, .ok c, .ok d =>
                  some (Json.obj [("itemNo", a), ("mainImageUrl", b),
                    ("mainImageAlt", c), ("pipUrl", d)])
              | _, _, _, _ => none
            else none)

/-- A search response holding exactly the given product items. -/
def searchRespOf (items : List Json) : Json :=
  Json.obj [("searchResultPage", Json.obj [("products", Json.obj [("main", Json.obj
    [("items", Json.arr items)])])])]

/-- An ART product missing all four required fields and also missing `name`. -/
def pBad : Json := Json.obj [("itemType", Json.str "ART")]

/-- An ART product with all four required fields. -/
def pGood : Json :=
  Json.obj [("itemType", Json.str "ART"), ("itemNo", Json.str "12345678"),
    ("mainImageUrl", Json.str "http://img"), ("mainImageAlt", Json.str "a chair"),
    ("pipUrl", Json.str "http://pip"), ("name", Json.str "STOL")]

/-- An ART product missing a required field but carrying a `name`. -/
def pSkip : Json :=
  Json.obj [("itemType", Json.str "ART"), ("name", Json.str "BORD")]

/-- A non-ART product. -/
def pNonArt : Json := Json.obj [("itemType", Json.str "SPR")]

def searchItemsEx : List Json :=
  [Json.obj [("product", pGood)], Json.obj [("product", pSkip)],
   Json.obj [("product", pNonArt)]]

/-- A network answering every request with the bad-product search response. -/
def netSearchBad : Net := fun _ => .ok (Bytes.json (searchRespOf [Json.obj [("product", pBad)]]))

/-- A network answering every request with the three-product search response. -/
def netSearchOk : Net := fun _ => .ok (Bytes.json (searchRespOf searchItemsEx))

/-- Stage 1 of the normalization (lines 97-103): the flattening loop applied
to the snapshot of `top.children_recursive`. -/
def normStage1 (s : Scene) (topId : Nat) : Scene :=
  flattenAll topId s ((children_recursive s topId).map (fun o => o.oid))

/-- Stage 2 (lines 107-108): the tagging loop over `[top] + children_recursive`. -/
def normStage2 (s : Scene) (topId : Nat) (itemNo : String) : Scene :=
  tagAll (normStage1 s topId)
    (topId :: (children_recursive (normStage1 s topId) topId).map (fun o => o.oid)) itemNo

/-- Stage 3 (lines 112-118): rename the top object to the first free name. -/
def normStage3 (s : Scene) (topId : Nat) (itemNo base : String) : Scene :=
  setName (normStage2 s topId itemNo) topId (pickName (normStage2 s topId itemNo) base)

/-- Stage 4 (lines 119-120): rename the children after the top object. -/
def normStage4 (s : Scene) (topId : Nat) (itemNo base : String) : Scene :=
  renameChildren (normStage3 s topId itemNo base) topId
    ((children_recursive (normStage3 s topId itemNo base) topId).map (fun o => o.oid))

/-- `s'` is `s` transformed object-wise by `f`, preserving identity, parent
and type (names and properties may change). -/
def MapsToSkel (s s' : Scene) (f : BObj → BObj) : Prop :=
  s' = s.map f ∧ (∀ o, (f o).oid = o.oid) ∧ (∀ o, (f o).parent = o.parent) ∧
    (∀ o, (f o).otype = o.otype)

/-- `s'` is `s` transformed object-wise by `f`, preserving identity, parent,
type and properties (only names may change). -/
def MapsToNames (s s' : Scene) (f : BObj → BObj) : Prop :=
  MapsToSkel s s' f ∧ ∀ o, (f o).props = o.props

/-- The PIP document served for item 123 in the import scenario. -/
def pipJsonEx : Json :=
  Json.obj [("name", Json.str "STOL"), ("price", Json.str "10"),
    ("pipUrl", Json.str "http://pip")]

/-- A network serving the PIP, the model-existence check, the model metadata
and the model binary for item 123. -/
def netFull : Net := fun u =>
  if u = pipUrlOf wEx "123" ++ "?" then .ok (Bytes.json pipJsonEx)
  else if u = roteraExistsUrl wEx "123" ++ "?" then
    .ok (Bytes.json (Json.obj [("exists", Json.bool true)]))
  else if u = roteraModelUrl wEx "123" ++ "?" then
    .ok (Bytes.json (Json.obj [("modelUrl", Json.str "http://files/m.glb")]))
  else if u = "http://files/m.glb" then .ok (Bytes.invalid "glb-bytes")
  else .error "404"

/-- The object tree produced by the USD import in the scenario: an empty
root, an empty Meshes node under it, and two meshes under that. -/
def sceneImp : Scene :=
  [⟨1, "Root", "EMPTY", none, []⟩,
   ⟨2, "Meshes", "EMPTY", some 1, []⟩,
   ⟨3, "A", "MESH", some 2, []⟩,
   ⟨4, "B", "MESH", some 2, []⟩]

/-- The import stub for the scenario: replaces the scene with the tree above
and selects the Meshes node, as the USD importer does for multi-mesh files. -/
def usdEx : String → Scene → Scene × Option Nat := fun _ _ => (sceneImp, some 2)

def objSel : BObj := ⟨2, "Meshes", "EMPTY", some 1, []⟩

def objTop : BObj := ⟨1, "Root", "EMPTY", none, []⟩

def fs1E : FS := fsEmpty.write (pipCachePath wEx "123") (Bytes.json pipJsonEx)

def fs2E : FS := fs1E.write (modelCachePath wEx "123") (Bytes.invalid "glb-bytes")

def log1E : List String := [pipUrlOf wEx "123" ++ "?"]

def log2E : List String :=
  [roteraExistsUrl wEx "123" ++ "?", roteraModelUrl wEx "123" ++ "?", "http://files/m.glb"]

/-
Theorems.
-/

/-- Claim C9: `IkeaApiWrapper.format` is total on every input string: it
keeps exactly the digit characters, grouped three, three, two with dot
separators; the three groups are the first (at most) eight digits, with
short or empty groups when fewer than eight digits exist, and full groups
of sizes 3, 3, 2 when at least eight digits exist.  Out-of-range slices
clamp rather than raise. -/
theorem format_groups_digits (w : IkeaApiWrapper) (s : String) :
    w.format s =
      String.mk ((digitsOf s).take 3) ++ "." ++ String.mk (((digitsOf s).drop 3).take 3) ++
        "." ++ String.mk (((digitsOf s).drop 6).take 2) ∧
    (digitsOf s).take 3 ++ (((digitsOf s).drop 3).take 3 ++ ((digitsOf s).drop 6).take 2) =
      (digitsOf s).take 8 ∧
    ((digitsOf s).take 3).length ≤ 3 ∧ (((digitsOf s).drop 3).take 3).length ≤ 3 ∧
    (((digitsOf s).drop 6).take 2).length ≤ 2 ∧
    (8 ≤ (digitsOf s).length →
      ((digitsOf s).take 3).length = 3 ∧ (((digitsOf s).drop 3).take 3).length = 3 ∧
      (((digitsOf s).drop 6).take 2).length = 2) := by
  refine ⟨?_, ?_, ?_, ?_, ?_, ?_⟩
  · simp [IkeaApiWrapper.format, pySlice, digitsOf]
  · have h1 : (digitsOf s).take 8 = (digitsOf s).take 3 ++ ((digitsOf s).drop 3).take 5 := by
      rw [show (8 : Nat) = 3 + 5 from rfl, List.take_add]
    have h2 : ((digitsOf s).drop 3).take 5 =
        ((digitsOf s).drop 3).take 3 ++ (((digitsOf s).drop 3).drop 3).take 2 := by
      rw [show (5 : Nat) = 3 + 2 from rfl, List.take_add]
    rw [h1, h2, List.drop_drop]
  · simp [List.length_take]
  · simp [List.length_take]
  · simp [List.length_take]
  · intro h
    simp only [List.length_take, List.length_drop]
    omega

/-- Witness for `format_groups_digits` at concrete inputs: a mixed string
with more than eight digits, and exercising the eight-digit hypothesis. -/
theorem format_groups_digits_witness :
    IkeaApiWrapper.format wEx "ab12cd3456789xy" = "123.456.78" ∧
    ((digitsOf "ab12cd3456789xy").take 3).length = 3 ∧
    IkeaApiWrapper.format wEx "7" = "7.." := by
  have h := format_groups_digits wEx "ab12cd3456789xy"
  have h7 := format_groups_digits wEx "7"
  exact ⟨h.1.trans (by decide), (h.2.2.2.2.2 (by decide)).1, h7.1.trans (by decide)⟩

/-- Claim C7: `IkeaImportOperator.execute` recovers from failure exactly by
catch-and-display: without online access it reports an error and returns
CANCELLED touching neither the cache, the scene nor the network; when the try
block raises `IkeaException` the operator reports the exception message at
ERROR level and returns FINISHED; and CANCELLED is returned only when online
access is disabled. -/
theorem execute_error_handling (w : IkeaApiWrapper) (net : Net)
    (usd : String → Scene → Scene × Option Nat) (fs : FS) (s : Scene) (itemNo : String) :
    IkeaImportOperator.execute false w net usd fs s itemNo =
      { ret := .ok .CANCELLED,
        reports := [("ERROR", "IKEA Browser requires online access")],
        fs := fs, scene := s, fetched := [] } ∧
    (∀ m fs2 s2 log,
      executeTry w net usd fs s itemNo = (some (.ikeaException m), fs2, s2, log) →
      IkeaImportOperator.execute true w net usd fs s itemNo =
        { ret := .ok .FINISHED, reports := [("ERROR", m)], fs := fs2, scene := s2,
          fetched := log }) ∧
    (∀ online, (IkeaImportOperator.execute online w net usd fs s itemNo).ret =
        .ok .CANCELLED → online = false) := by
  refine ⟨rfl, ?_, ?_⟩
  · intro m fs2 s2 log h
    simp [IkeaImportOperator.execute, h]
  · intro online hret
    cases online with
    | false => rfl
    | true =>
        exfalso
        revert hret
        simp only [IkeaImportOperator.execute, Bool.not_true, Bool.false_eq_true,
          if_false]
        rcases h : executeTry w net usd fs s itemNo with ⟨oe, fs2, s2, log⟩
        cases oe with
        | none => simp
        | some e => cases e <;> simp

/-- Witness for `execute_error_handling`: on an empty cache with a dead
network, the try block raises `IkeaException` from the PIP download, the
operator reports it at ERROR level and finishes; disabling online access
yields CANCELLED. -/
theorem execute_error_handling_witness :
    IkeaImportOperator.execute true wEx netDead usd0 fsEmpty [] "123" =
      { ret := .ok .FINISHED,
        reports := [("ERROR", "Error downloading PIP for #123: " ++
          ("Error fetching " ++ pipUrlOf wEx "123" ++ ": " ++ "network unreachable"))],
        fs := fsEmpty, scene := [], fetched := [pipUrlOf wEx "123" ++ "?"] } ∧
    (IkeaImportOperator.execute false wEx netDead usd0 fsEmpty [] "123").ret =
      .ok .CANCELLED := by
  have h := execute_error_handling wEx netDead usd0 fsEmpty [] "123"
  refine ⟨h.2.1 _ _ _ _ ?_, by rw [h.1]⟩
  rfl

/-- Claim C10: while `bpy.app.online_access` is false, no network access
happens: the search update returns an empty result list with no fetch,
the import operator fetches nothing and leaves cache and scene untouched, the
browser panel draws nothing and fetches nothing, the product panel fetches
nothing, and `_get_thumbnail_icon` raises `IkeaException` instead of fetching
whenever the preview is not yet loaded — for every cache state, including
one where the thumbnail file already exists on disk. -/
theorem offline_no_network (w : IkeaApiWrapper) (net : Net)
    (usd : String → Scene → Scene × Option Nat) (fs : FS) (s : Scene)
    (itemNo query url : String) (results : List Json) (thumbs : Thumbs) (obj : BObj) :
    _update_search false w net query = (.ok [], []) ∧
    (IkeaImportOperator.execute false w net usd fs s itemNo).fetched = [] ∧
    (IkeaImportOperator.execute false w net usd fs s itemNo).fs = fs ∧
    (IkeaImportOperator.execute false w net usd fs s itemNo).scene = s ∧
    IkeaBrowserPanel.draw false w net results fs thumbs = (.ok (), fs, thumbs, []) ∧
    (IkeaProductPanel.draw false w net fs thumbs obj).2.2.2 = [] ∧
    (obj.props.lookup "ikeaItemNo" = some itemNo →
      IkeaProductPanel.draw false w net fs thumbs obj = (.ok (), fs, thumbs, [])) ∧
    (thumbs.lookup itemNo = none →
      _get_thumbnail_icon false w net fs thumbs itemNo url =
        (.error (.ikeaException "Cannot load thumbnail without internet access"),
         fs, thumbs, [])) := by
  refine ⟨rfl, rfl, rfl, rfl, rfl, ?_, ?_, ?_⟩
  · unfold IkeaProductPanel.draw
    cases h : obj.props.lookup "ikeaItemNo" <;> simp
  · intro h
    unfold IkeaProductPanel.draw
    rw [h]
    rfl
  · intro h
    unfold _get_thumbnail_icon
    rw [h]
    rfl

/-- Witness for `offline_no_network`: a tagged object, an unloaded preview
list, and a cache that already holds the thumbnail file for item 123 — the
icon helper still raises `IkeaException` rather than touching the cache. -/
theorem offline_no_network_witness :
    IkeaProductPanel.draw false wEx netDead fsThumb [] objTagged =
      (.ok (), fsThumb, [], []) ∧
    FS.pathExists fsThumb (thumbCachePath wEx "123") = true ∧
    _get_thumbnail_icon false wEx netDead fsThumb [] "123" "http://x/y.jpg" =
      (.error (.ikeaException "Cannot load thumbnail without internet access"),
       fsThumb, [], []) := by
  have h := offline_no_network wEx netDead usd0 fsThumb [] "123" "q" "http://x/y.jpg"
    [] [] objTagged
  exact ⟨h.2.2.2.2.2.2.1 rfl, rfl, h.2.2.2.2.2.2.2 rfl⟩

/- Helper lemmas about the cache store and the three cached fetchers. -/

theorem FS.read_write_self (fs : FS) (p : String) (b : Bytes) :
    (fs.write p b).read p = some b := by
  simp [FS.read, FS.write, List.lookup]

theorem FS.pathExists_write_self (fs : FS) (p : String) (b : Bytes) :
    (fs.write p b).pathExists p = true := by
  simp [FS.pathExists, FS.read_write_self]

theorem jsonLoads_ok_iff (b : Bytes) (j : Json) : jsonLoads b = .ok j ↔ b = .json j := by
  cases b <;> simp [jsonLoads]

theorem _get_log (net : Net) (url : String) (params headers : List (String × String)) :
    (IkeaApiWrapper._get net url params headers).2 = [url ++ "?" ++ urlencode params] := by
  unfold IkeaApiWrapper._get
  cases hn : net (url ++ "?" ++ urlencode params) <;> simp [hn]

theorem _get_json_log (net : Net) (url : String) (params headers : List (String × String)) :
    (IkeaApiWrapper._get_json net url params headers).2 =
      [url ++ "?" ++ urlencode params] := by
  unfold IkeaApiWrapper._get_json
  rcases hg : IkeaApiWrapper._get net url params headers with ⟨r, log⟩
  have h2 := _get_log net url params headers
  rw [hg] at h2
  cases r with
  | error e => simpa using h2
  | ok b => cases hl : jsonLoads b <;> simp [hl] <;> simpa using h2

/-- A cache hit evaluates `get_pip` without any fetch. -/
theorem get_pip_cached_eval (w : IkeaApiWrapper) (net : Net) (fs : FS) (itemNo : String)
    (j : Json) (hr : fs.read (pipCachePath w itemNo) = some (.json j)) :
    w.get_pip net fs itemNo = (.ok j, fs, []) := by
  have hc : fs.pathExists (pipCachePath w itemNo) = true := by
    simp [FS.pathExists, hr]
  unfold IkeaApiWrapper.get_pip
  simp [hc, hr, jsonLoads]

/-- A successful `get_pip` leaves the decodable payload in the cache. -/
theorem get_pip_ok_cache (w : IkeaApiWrapper) (net : Net) (fs : FS) (itemNo : String)
    (j : Json) (fs2 : FS) (log : List String)
    (h : w.get_pip net fs itemNo = (.ok j, fs2, log)) :
    fs2.read (pipCachePath w itemNo) = some (.json j) := by
  unfold IkeaApiWrapper.get_pip at h
  cases hc : fs.pathExists (pipCachePath w itemNo) with
  | true =>
      simp only [hc, if_true] at h
      cases hr : fs.read (pipCachePath w itemNo) with
      | none => simp [hr] at h
      | some b =>
          simp only [hr] at h
          cases b with
          | json j0 =>
              simp [jsonLoads] at h
              obtain ⟨hj, hfs, -⟩ := h
              rw [← hfs, hr, hj]
          | invalid t => simp [jsonLoads] at h
  | false =>
      simp only [hc, Bool.false_eq_true, if_false] at h
      rcases hg : IkeaApiWrapper._get_json net (pipUrlOf w itemNo) [] [] with ⟨r, glog⟩
      cases r with
      | error e => simp [hg] at h
      | ok data =>
          simp only [hg, FS.read_write_self, jsonDumps] at h
          simp [jsonLoads] at h
          obtain ⟨hj, hfs, -⟩ := h
          rw [← hfs, FS.read_write_self, hj]

/-- `get_pip` never modifies the cache when it fails. -/
theorem get_pip_error_fs (w : IkeaApiWrapper) (net : Net) (fs : FS) (itemNo : String)
    (e : Exc) (fs2 : FS) (log : List String)
    (h : w.get_pip net fs itemNo = (.error e, fs2, log)) : fs2 = fs := by
  unfold IkeaApiWrapper.get_pip at h
  cases hc : fs.pathExists (pipCachePath w itemNo) with
  | true =>
      simp only [hc, if_true] at h
      cases hr : fs.read (pipCachePath w itemNo) with
      | none => simp [hr] at h; exact h.2.1.symm
      | some b =>
          simp only [hr] at h
          cases b with
          | json j0 => simp [jsonLoads] at h
          | invalid t => simp [jsonLoads] at h; exact h.2.1.symm
  | false =>
      simp only [hc, Bool.false_eq_true, if_false] at h
      rcases hg : IkeaApiWrapper._get_json net (pipUrlOf w itemNo) [] [] with ⟨r, glog⟩
      cases r with
      | error e0 => simp [hg] at h; exact h.2.1.symm
      | ok data =>
          simp only [hg, FS.read_write_self, jsonDumps] at h
          simp [jsonLoads] at h

/-- The fetch log of `get_pip`: empty on a cache hit, exactly the PIP URL on
a cache miss. -/
theorem get_pip_log (w : IkeaApiWrapper) (net : Net) (fs : FS) (itemNo : String) :
    (fs.pathExists (pipCachePath w itemNo) = true →
      (w.get_pip net fs itemNo).2.2 = []) ∧
    (fs.pathExists (pipCachePath w itemNo) = false →
      (w.get_pip net fs itemNo).2.2 = [pipUrlOf w itemNo ++ "?"]) := by
  constructor
  · intro hc
    unfold IkeaApiWrapper.get_pip
    simp only [hc, if_true]
    cases hr : fs.read (pipCachePath w itemNo) with
    | none => simp [hr]
    | some b => cases b <;> simp [hr, jsonLoads]
  · intro hc
    unfold IkeaApiWrapper.get_pip
    simp only [hc, Bool.false_eq_true, if_false]
    rcases hg : IkeaApiWrapper._get_json net (pipUrlOf w itemNo) [] [] with ⟨r, glog⟩
    have hlog : glog = [pipUrlOf w itemNo ++ "?"] := by
      have h2 := _get_json_log net (pipUrlOf w itemNo) [] []
      rw [hg] at h2
      simpa [urlencode] using h2
    subst hlog
    cases r with
    | error e0 => simp [hg]
    | ok data =>
        simp only [hg, FS.read_write_self, jsonDumps]
        simp [jsonLoads]

/-- A cache hit evaluates `get_thumbnail` without any fetch, ignoring `url`. -/
theorem get_thumbnail_cached_eval (w : IkeaApiWrapper) (net : Net) (fs : FS)
    (itemNo url : String) (hc : fs.pathExists (thumbCachePath w itemNo) = true) :
    w.get_thumbnail net fs itemNo url = (.ok (thumbCachePath w itemNo), fs, []) := by
  unfold IkeaApiWrapper.get_thumbnail
  simp [hc]

/-- A successful `get_thumbnail` returns the cache path and leaves the file
in the cache. -/
theorem get_thumbnail_ok_cache (w : IkeaApiWrapper) (net : Net) (fs : FS)
    (itemNo url p : String) (fs2 : FS) (log : List String)
    (h : w.get_thumbnail net fs itemNo url = (.ok p, fs2, log)) :
    p = thumbCachePath w itemNo ∧ fs2.pathExists (thumbCachePath w itemNo) = true := by
  unfold IkeaApiWrapper.get_thumbnail at h
  cases hc : fs.pathExists (thumbCachePath w itemNo) with
  | true =>
      simp only [hc, if_true] at h
      obtain ⟨hp, hfs, -⟩ := Prod.mk.injEq .. ▸ h
      exact ⟨(Except.ok.injEq .. ▸ congrArg Prod.fst h).symm ▸ rfl, by
        cases h; exact hc⟩
  | false =>
      simp only [hc, Bool.false_eq_true, if_false] at h
      rcases hg : IkeaApiWrapper._get net url [] [] with ⟨r, glog⟩
      rw [hg] at h
      cases r with
      | error e => simp at h
      | ok data =>
          simp at h
          obtain ⟨hp, hfs, -⟩ := h
          exact ⟨hp.symm, hfs ▸ FS.pathExists_write_self fs (thumbCachePath w itemNo) data⟩

/-- `get_thumbnail` never modifies the cache when it fails. -/
theorem get_thumbnail_error_fs (w : IkeaApiWrapper) (net : Net) (fs : FS)
    (itemNo url : String) (e : Exc) (fs2 : FS) (log : List String)
    (h : w.get_thumbnail net fs itemNo url = (.error e, fs2, log)) : fs2 = fs := by
  unfold IkeaApiWrapper.get_thumbnail at h
  cases hc : fs.pathExists (thumbCachePath w itemNo) with
  | true => simp [hc] at h
  | false =>
      simp only [hc, Bool.false_eq_true, if_false] at h
      rcases hg : IkeaApiWrapper._get net url [] [] with ⟨r, glog⟩
      rw [hg] at h
      cases r with
      | error e0 => simp at h; exact h.2.1.symm
      | ok data => simp at h

/-- The fetch log of `get_thumbnail`: empty on a cache hit, exactly the
given URL on a cache miss. -/
theorem get_thumbnail_log (w : IkeaApiWrapper) (net : Net) (fs : FS) (itemNo url : String) :
    (fs.pathExists (thumbCachePath w itemNo) = true →
      (w.get_thumbnail net fs itemNo url).2.2 = []) ∧
    (fs.pathExists (thumbCachePath w itemNo) = false →
      (w.get_thumbnail net fs itemNo url).2.2 = [url ++ "?"]) := by
  constructor
  · intro hc
    rw [get_thumbnail_cached_eval w net fs itemNo url hc]
  · intro hc
    unfold IkeaApiWrapper.get_thumbnail
    simp only [hc, Bool.false_eq_true, if_false]
    rcases hg : IkeaApiWrapper._get net url [] [] with ⟨r, glog⟩
    have hlog : glog = [url ++ "?"] := by
      have h2 := _get_log net url [] []
      rw [hg] at h2
      simpa [urlencode] using h2
    subst hlog
    cases r <;> simp

/-- A cache hit evaluates `get_model` without any fetch. -/
theorem get_model_cached_eval (w : IkeaApiWrapper) (net : Net) (fs : FS) (itemNo : String)
    (hc : fs.pathExists (modelCachePath w itemNo) = true) :
    w.get_model net fs itemNo = (.ok (modelCachePath w itemNo), fs, []) := by
  unfold IkeaApiWrapper.get_model
  simp [hc]

/-- Exhaustive shape of `get_model` on a cache miss: either it fails with an
`IkeaException`, without touching the store, after one, two or three
requests (the two fixed endpoints in order, then the model URL from the
metadata); or it succeeds after exactly those three requests and writes the
model file. -/
theorem get_model_fresh_cases (w : IkeaApiWrapper) (net : Net) (fs : FS) (itemNo : String)
    (hc : fs.pathExists (modelCachePath w itemNo) = false) :
    (∃ e log, w.get_model net fs itemNo = (.error e, fs, log) ∧ Exc.isIkea e = true ∧
      (log = [roteraExistsUrl w itemNo ++ "?"] ∨
       log = [roteraExistsUrl w itemNo ++ "?", roteraModelUrl w itemNo ++ "?"] ∨
       ∃ m, log = [roteraExistsUrl w itemNo ++ "?", roteraModelUrl w itemNo ++ "?", m])) ∨
    (∃ d m, w.get_model net fs itemNo =
      (.ok (modelCachePath w itemNo), fs.write (modelCachePath w itemNo) d,
       [roteraExistsUrl w itemNo ++ "?", roteraModelUrl w itemNo ++ "?", m])) := by
  unfold IkeaApiWrapper.get_model
  simp only [hc, Bool.false_eq_true, if_false]
  rcases hg1 : IkeaApiWrapper._get_json net (roteraExistsUrl w itemNo) [] roteraHeaders
    with ⟨r1, log1⟩
  have hl1 : log1 = [roteraExistsUrl w itemNo ++ "?"] := by
    have h2 := _get_json_log net (roteraExistsUrl w itemNo) [] roteraHeaders
    rw [hg1] at h2
    simpa [urlencode] using h2
  subst hl1
  cases r1 with
  | error e1 =>
      exact .inl ⟨.ikeaException ("Error downloading model for #" ++ itemNo ++ ": " ++
        e1.message), _, by simp, rfl, .inl rfl⟩
  | ok rotera_exists =>
      cases hk : rotera_exists.getKey "exists" with
      | error e2 =>
          exact .inl ⟨.ikeaException ("Error downloading model for #" ++ itemNo ++ ": " ++
            e2.message), _, by simp [hk], rfl, .inl rfl⟩
      | ok ex =>
          cases ht : ex.pyTruthy with
          | false =>
              exact .inl ⟨.ikeaException ("Error downloading model for #" ++ itemNo ++ ": " ++
                Exc.message (.ikeaException ("No model available for #" ++ itemNo))), _,
                by simp [hk, ht], rfl, .inl rfl⟩
          | true =>
              rcases hg2 : IkeaApiWrapper._get_json net (roteraModelUrl w itemNo) []
                  roteraHeaders with ⟨r2, log2⟩
              have hl2 : log2 = [roteraModelUrl w itemNo ++ "?"] := by
                have h2 := _get_json_log net (roteraModelUrl w itemNo) [] roteraHeaders
                rw [hg2] at h2
                simpa [urlencode] using h2
              subst hl2
              cases r2 with
              | error e3 =>
                  exact .inl ⟨.ikeaException ("Error downloading model for #" ++ itemNo ++
                    ": " ++ e3.message), _, by simp [hk, ht, hg2], rfl, .inr (.inl rfl)⟩
              | ok rotera_data =>
                  cases hmu : rotera_data.getKey "modelUrl" with
                  | error e4 =>
                      exact .inl ⟨.ikeaException ("Error downloading model for #" ++ itemNo ++
                        ": " ++ e4.message), _, by simp [hk, ht, hg2, hmu], rfl,
                        .inr (.inl rfl)⟩
                  | ok mu =>
                      cases mu with
                      | str murl =>
                          cases hn : net murl with
                          | error e5 =>
                              exact .inl ⟨.ikeaException ("Error downloading model for #" ++
                                itemNo ++ ": " ++ Exc.message (.urlError e5)), _,
                                by simp [hk, ht, hg2, hmu, hn], rfl, .inr (.inr ⟨murl, rfl⟩)⟩
                          | ok d =>
                              exact .inr ⟨d, murl, by simp [hk, ht, hg2, hmu, hn]⟩
                      | null =>
                          exact .inl ⟨.ikeaException ("Error downloading model for #" ++
                            itemNo ++ ": " ++ Exc.message (.typeError
                            "urlopen expected a str url")), _,
                            by simp [hk, ht, hg2, hmu], rfl, .inr (.inl rfl)⟩
                      | bool b =>
                          exact .inl ⟨.ikeaException ("Error downloading model for #" ++
                            itemNo ++ ": " ++ Exc.message (.typeError
                            "urlopen expected a str url")), _,
                            by simp [hk, ht, hg2, hmu], rfl, .inr (.inl rfl)⟩
                      | num n =>
                          exact .inl ⟨.ikeaException ("Error downloading model for #" ++
                            itemNo ++ ": " ++ Exc.message (.typeError
                            "urlopen expected a str url")), _,
                            by simp [hk, ht, hg2, hmu], rfl, .inr (.inl rfl)⟩
                      | arr l =>
                          exact .inl ⟨.ikeaException ("Error downloading model for #" ++
                            itemNo ++ ": " ++ Exc.message (.typeError
                            "urlopen expected a str url")), _,
                            by simp [hk, ht, hg2, hmu], rfl, .inr (.inl rfl)⟩
                      | obj l =>
                          exact .inl ⟨.ikeaException ("Error downloading model for #" ++
                            itemNo ++ ": " ++ Exc.message (.typeError
                            "urlopen expected a str url")), _,
                            by simp [hk, ht, hg2, hmu], rfl, .inr (.inl rfl)⟩

/-- `get_model` never modifies the cache when it fails. -/
theorem get_model_error_fs (w : IkeaApiWrapper) (net : Net) (fs : FS) (itemNo : String)
    (e : Exc) (fs2 : FS) (log : List String)
    (h : w.get_model net fs itemNo = (.error e, fs2, log)) : fs2 = fs := by
  cases hc : fs.pathExists (modelCachePath w itemNo) with
  | true => rw [get_model_cached_eval w net fs itemNo hc] at h; simp at h
  | false =>
      rcases get_model_fresh_cases w net fs itemNo hc with
        ⟨e0, log0, heq, -, -⟩ | ⟨d, m, heq⟩
      · rw [heq] at h
        simp at h
        exact h.2.1.symm
      · rw [heq] at h
        simp at h

/-- A successful `get_model` returns the cache path and leaves the file in
the cache. -/
theorem get_model_ok_cache (w : IkeaApiWrapper) (net : Net) (fs : FS) (itemNo p : String)
    (fs2 : FS) (log : List String)
    (h : w.get_model net fs itemNo = (.ok p, fs2, log)) :
    p = modelCachePath w itemNo ∧ fs2.pathExists (modelCachePath w itemNo) = true := by
  cases hc : fs.pathExists (modelCachePath w itemNo) with
  | true =>
      rw [get_model_cached_eval w net fs itemNo hc] at h
      simp at h
      exact ⟨h.1.symm, h.2.1 ▸ hc⟩
  | false =>
      rcases get_model_fresh_cases w net fs itemNo hc with
        ⟨e0, log0, heq, -, -⟩ | ⟨d, m, heq⟩
      · rw [heq] at h; simp at h
      · rw [heq] at h
        simp at h
        exact ⟨h.1.symm, h.2.1 ▸ FS.pathExists_write_self fs (modelCachePath w itemNo) d⟩

/-- Claim C1: the wrapper memoizes payloads on disk keyed by the item number:
a successful `get_pip`, `get_thumbnail` or `get_model` leaves the payload in
the cache under the item number, after which a repeated call — on any
network — returns the same value, changes nothing, and performs no fetch;
and `get_thumbnail` ignores its `url` argument whenever the thumbnail file
already exists. -/
theorem cache_memoization (w : IkeaApiWrapper) :
    (∀ net fs itemNo j fs2 log, w.get_pip net fs itemNo = (.ok j, fs2, log) →
      fs2.pathExists (pipCachePath w itemNo) = true ∧
      ∀ net2 : Net, w.get_pip net2 fs2 itemNo = (.ok j, fs2, [])) ∧
    (∀ net fs itemNo url p fs2 log, w.get_thumbnail net fs itemNo url = (.ok p, fs2, log) →
      fs2.pathExists (thumbCachePath w itemNo) = true ∧
      ∀ (net2 : Net) (url2 : String),
        w.get_thumbnail net2 fs2 itemNo url2 = (.ok p, fs2, [])) ∧
    (∀ net fs itemNo p fs2 log, w.get_model net fs itemNo = (.ok p, fs2, log) →
      fs2.pathExists (modelCachePath w itemNo) = true ∧
      ∀ net2 : Net, w.get_model net2 fs2 itemNo = (.ok p, fs2, [])) ∧
    (∀ (net : Net) fs itemNo url url2,
      fs.pathExists (thumbCachePath w itemNo) = true →
      w.get_thumbnail net fs itemNo url = w.get_thumbnail net fs itemNo url2) := by
  refine ⟨?_, ?_, ?_, ?_⟩
  · intro net fs itemNo j fs2 log h
    have hr := get_pip_ok_cache w net fs itemNo j fs2 log h
    exact ⟨by simp [FS.pathExists, hr], fun net2 =>
      get_pip_cached_eval w net2 fs2 itemNo j hr⟩
  · intro net fs itemNo url p fs2 log h
    obtain ⟨hp, hex⟩ := get_thumbnail_ok_cache w net fs itemNo url p fs2 log h
    subst hp
    exact ⟨hex, fun net2 url2 => get_thumbnail_cached_eval w net2 fs2 itemNo url2 hex⟩
  · intro net fs itemNo p fs2 log h
    obtain ⟨hp, hex⟩ := get_model_ok_cache w net fs itemNo p fs2 log h
    subst hp
    exact ⟨hex, fun net2 => get_model_cached_eval w net2 fs2 itemNo hex⟩
  · intro net fs itemNo url url2 hc
    rw [get_thumbnail_cached_eval w net fs itemNo url hc,
      get_thumbnail_cached_eval w net fs itemNo url2 hc]

/-- Witness for `cache_memoization`: on an initially empty cache with a
network serving the PIP document, the first `get_pip` fetches and caches,
and the repeated call on a dead network returns the same payload with no
fetch; a cached thumbnail is returned identically for two different URLs. -/
theorem cache_memoization_witness :
    IkeaApiWrapper.get_pip wEx netDead
        (fsEmpty.write (pipCachePath wEx "123") (Bytes.json (Json.str "pipdata")))
        "123" =
      (.ok (Json.str "pipdata"),
       fsEmpty.write (pipCachePath wEx "123") (Bytes.json (Json.str "pipdata")), []) ∧
    IkeaApiWrapper.get_thumbnail wEx netDead fsThumb "123" "http://a" =
      IkeaApiWrapper.get_thumbnail wEx netDead fsThumb "123" "http://b" := by
  have h := cache_memoization wEx
  constructor
  · have hfirst : IkeaApiWrapper.get_pip wEx
        (fun _ => .ok (Bytes.json (Json.str "pipdata"))) fsEmpty "123" =
        (.ok (Json.str "pipdata"),
         fsEmpty.write (pipCachePath wEx "123") (Bytes.json (Json.str "pipdata")),
         [pipUrlOf wEx "123" ++ "?"]) := by rfl
    exact (h.1 _ _ _ _ _ _ hfirst).2 netDead
  · exact h.2.2.2 netDead fsThumb "123" "http://a" "http://b" rfl

/-- Claim C6 (amended by nothing, stated as in the spec): if `get_pip`,
`get_thumbnail` or `get_model` fails, the cache is left exactly as it was —
no file is created or modified — and, when the payload was not already
cached, a repeated call attempts the download again. -/
theorem cache_unchanged_on_error (w : IkeaApiWrapper) (net : Net) (fs : FS)
    (itemNo url : String) :
    (∀ e fs2 log, w.get_pip net fs itemNo = (.error e, fs2, log) → fs2 = fs) ∧
    (∀ e fs2 log, w.get_thumbnail net fs itemNo url = (.error e, fs2, log) → fs2 = fs) ∧
    (∀ e fs2 log, w.get_model net fs itemNo = (.error e, fs2, log) → fs2 = fs) ∧
    (∀ e fs2 log, w.get_pip net fs itemNo = (.error e, fs2, log) →
      fs.pathExists (pipCachePath w itemNo) = false →
      ∀ net2 : Net, (w.get_pip net2 fs2 itemNo).2.2 = [pipUrlOf w itemNo ++ "?"]) ∧
    (∀ e fs2 log, w.get_thumbnail net fs itemNo url = (.error e, fs2, log) →
      fs.pathExists (thumbCachePath w itemNo) = false →
      ∀ (net2 : Net) (url2 : String),
        (w.get_thumbnail net2 fs2 itemNo url2).2.2 = [url2 ++ "?"]) ∧
    (∀ e fs2 log, w.get_model net fs itemNo = (.error e, fs2, log) →
      fs.pathExists (modelCachePath w itemNo) = false →
      ∀ net2 : Net, ∃ rest,
        (w.get_model net2 fs2 itemNo).2.2 = (roteraExistsUrl w itemNo ++ "?") :: rest) := by
  refine ⟨fun e fs2 log h => get_pip_error_fs w net fs itemNo e fs2 log h,
    fun e fs2 log h => get_thumbnail_error_fs w net fs itemNo url e fs2 log h,
    fun e fs2 log h => get_model_error_fs w net fs itemNo e fs2 log h, ?_, ?_, ?_⟩
  · intro e fs2 log h hc net2
    rw [get_pip_error_fs w net fs itemNo e fs2 log h]
    exact (get_pip_log w net2 fs itemNo).2 hc
  · intro e fs2 log h hc net2 url2
    rw [get_thumbnail_error_fs w net fs itemNo url e fs2 log h]
    exact (get_thumbnail_log w net2 fs itemNo url2).2 hc
  · intro e fs2 log h hc net2
    rw [get_model_error_fs w net fs itemNo e fs2 log h]
    rcases get_model_fresh_cases w net2 fs itemNo hc with
      ⟨e0, log0, heq, -, hsh⟩ | ⟨d, m, heq⟩
    · rw [heq]
      rcases hsh with h1 | h1 | ⟨m, h1⟩ <;> rw [h1] <;> exact ⟨_, rfl⟩
    · rw [heq]
      exact ⟨_, rfl⟩

/-- Witness for `cache_unchanged_on_error`: a failing download of item 123
on an empty cache leaves the cache empty, and the repeated call fetches the
PIP URL again. -/
theorem cache_unchanged_on_error_witness :
    (IkeaApiWrapper.get_pip wEx netDead fsEmpty "123").2.1 = fsEmpty ∧
    (IkeaApiWrapper.get_pip wEx netDead fsEmpty "123").2.2 = [pipUrlOf wEx "123" ++ "?"] := by
  have h := cache_unchanged_on_error wEx netDead fsEmpty "123" "http://a"
  have heq : IkeaApiWrapper.get_pip wEx netDead fsEmpty "123" =
      (.error (.ikeaException ("Error downloading PIP for #123: " ++
        ("Error fetching " ++ pipUrlOf wEx "123" ++ ": " ++ "network unreachable"))),
       fsEmpty, [pipUrlOf wEx "123" ++ "?"]) := by rfl
  refine ⟨?_, h.2.2.2.1 _ _ _ heq rfl netDead⟩
  rw [heq]

/-- A network failure surfaces from `_get_json` as the `IkeaException`
produced inside `_get`. -/
theorem _get_json_net_error (net : Net) (url : String)
    (params headers : List (String × String)) (msg : String)
    (hn : net (url ++ "?" ++ urlencode params) = .error msg) :
    (IkeaApiWrapper._get_json net url params headers).1 =
      .error (.ikeaException ("Error fetching " ++ url ++ ": " ++ msg)) := by
  unfold IkeaApiWrapper._get_json IkeaApiWrapper._get
  simp [hn]

/-- An undecodable payload surfaces from `_get_json` as a decode error. -/
theorem _get_json_net_invalid (net : Net) (url : String)
    (params headers : List (String × String)) (t : String)
    (hn : net (url ++ "?" ++ urlencode params) = .ok (Bytes.invalid t)) :
    (IkeaApiWrapper._get_json net url params headers).1 =
      .error (.jsonDecodeError ("Expecting value: " ++ t)) := by
  unfold IkeaApiWrapper._get_json IkeaApiWrapper._get
  simp [hn, jsonLoads]

/-- On a cache miss, a failing `get_pip` always raises `IkeaException`. -/
theorem get_pip_fresh_error_ikea (w : IkeaApiWrapper) (net : Net) (fs : FS)
    (itemNo : String) (e : Exc)
    (hc : fs.pathExists (pipCachePath w itemNo) = false)
    (h : (w.get_pip net fs itemNo).1 = .error e) : e.isIkea = true := by
  unfold IkeaApiWrapper.get_pip at h
  simp only [hc, Bool.false_eq_true, if_false] at h
  rcases hg : IkeaApiWrapper._get_json net (pipUrlOf w itemNo) [] [] with ⟨r, glog⟩
  rw [hg] at h
  cases r with
  | error e0 =>
      simp at h
      rw [← h]
      rfl
  | ok data =>
      simp only [FS.read_write_self, jsonDumps] at h
      simp [jsonLoads] at h

/-- A failing `get_thumbnail` always raises `IkeaException`. -/
theorem get_thumbnail_error_ikea (w : IkeaApiWrapper) (net : Net) (fs : FS)
    (itemNo url : String) (e : Exc)
    (h : (w.get_thumbnail net fs itemNo url).1 = .error e) : e.isIkea = true := by
  unfold IkeaApiWrapper.get_thumbnail at h
  cases hc : fs.pathExists (thumbCachePath w itemNo) with
  | true => simp [hc] at h
  | false =>
      simp only [hc, Bool.false_eq_true, if_false] at h
      rcases hg : IkeaApiWrapper._get net url [] [] with ⟨r, glog⟩
      rw [hg] at h
      cases r with
      | error e0 =>
          simp at h
          rw [← h]
          rfl
      | ok data => simp at h

/-- A failing `get_model` always raises `IkeaException`. -/
theorem get_model_error_ikea (w : IkeaApiWrapper) (net : Net) (fs : FS)
    (itemNo : String) (e : Exc)
    (h : (w.get_model net fs itemNo).1 = .error e) : e.isIkea = true := by
  cases hc : fs.pathExists (modelCachePath w itemNo) with
  | true => rw [get_model_cached_eval w net fs itemNo hc] at h; simp at h
  | false =>
      rcases get_model_fresh_cases w net fs itemNo hc with
        ⟨e0, log0, heq, hik, -⟩ | ⟨d, m, heq⟩
      · rw [heq] at h
        simp at h
        rw [← h]
        exact hik
      · rw [heq] at h
        simp at h

/-- `search` performs exactly one request and wraps both a network failure
and a decode failure of the response into `IkeaException`. -/
theorem search_wraps (w : IkeaApiWrapper) (net : Net) (query : String) :
    (w.search net query).2 = [searchUrl w ++ "?" ++ urlencode (searchParams query)] ∧
    (∀ msg, net (searchUrl w ++ "?" ++ urlencode (searchParams query)) = .error msg →
      resultIsIkeaErr (w.search net query).1 = true) ∧
    (∀ t, net (searchUrl w ++ "?" ++ urlencode (searchParams query)) = .ok (Bytes.invalid t) →
      resultIsIkeaErr (w.search net query).1 = true) := by
  refine ⟨?_, ?_, ?_⟩
  · unfold IkeaApiWrapper.search
    rcases hg : IkeaApiWrapper._get_json net (searchUrl w) (searchParams query) []
      with ⟨r, log⟩
    have h2 := _get_json_log net (searchUrl w) (searchParams query) []
    rw [hg] at h2
    simp at h2
    cases r <;> simpa using h2
  · intro msg hn
    have h1 := _get_json_net_error net (searchUrl w) (searchParams query) [] msg hn
    unfold IkeaApiWrapper.search
    rcases hg : IkeaApiWrapper._get_json net (searchUrl w) (searchParams query) []
      with ⟨r, log⟩
    rw [hg] at h1
    simp at h1
    rw [h1]
    rfl
  · intro t hn
    have h1 := _get_json_net_invalid net (searchUrl w) (searchParams query) [] t hn
    unfold IkeaApiWrapper.search
    rcases hg : IkeaApiWrapper._get_json net (searchUrl w) (searchParams query) []
      with ⟨r, log⟩
    rw [hg] at h1
    simp at h1
    rw [h1]
    rfl

/-- Claim C5, counterexample: with a corrupt (undecodable) cached `pip.json`,
`get_pip` fails with a plain JSON decode error — not an `IkeaException` —
because line 117 of ikea_lib.py decodes the cached file outside the
try/except.  No request is attempted at all on this call. -/
theorem request_wrapping_counterexample :
    IkeaApiWrapper.get_pip wEx netDead fsCorrupt "123" =
      (.error (.jsonDecodeError ("Expecting value: " ++ "partial")), fsCorrupt, []) ∧
    resultIsIkeaErr (IkeaApiWrapper.get_pip wEx netDead fsCorrupt "123").1 = false := by
  exact ⟨rfl, rfl⟩

/-- Claim C5 as amended: per call, every underlying request is attempted at
most once and never retried — `search` performs exactly one request,
`get_pip`/`get_thumbnail` perform one request exactly on a cache miss, and
`get_model` performs at most three requests (the two fixed endpoints in
order, then the URL taken from the metadata); any failure of the HTTP
request or of JSON decoding of a freshly downloaded payload raises
`IkeaException` — but decoding of an already cached `pip.json` is outside
the wrapping, so a corrupt cached file raises a plain decode error
(see `request_wrapping_counterexample`). -/
theorem request_wrapping_amended (w : IkeaApiWrapper) (net : Net) (fs : FS)
    (query itemNo url : String) :
    (w.search net query).2 = [searchUrl w ++ "?" ++ urlencode (searchParams query)] ∧
    (∀ msg, net (searchUrl w ++ "?" ++ urlencode (searchParams query)) = .error msg →
      resultIsIkeaErr (w.search net query).1 = true) ∧
    (∀ t, net (searchUrl w ++ "?" ++ urlencode (searchParams query)) = .ok (Bytes.invalid t) →
      resultIsIkeaErr (w.search net query).1 = true) ∧
    (fs.pathExists (pipCachePath w itemNo) = true →
      (w.get_pip net fs itemNo).2.2 = []) ∧
    (fs.pathExists (pipCachePath w itemNo) = false →
      (w.get_pip net fs itemNo).2.2 = [pipUrlOf w itemNo ++ "?"] ∧
      ∀ e, (w.get_pip net fs itemNo).1 = .error e → e.isIkea = true) ∧
    (fs.pathExists (thumbCachePath w itemNo) = true →
      (w.get_thumbnail net fs itemNo url).2.2 = []) ∧
    (fs.pathExists (thumbCachePath w itemNo) = false →
      (w.get_thumbnail net fs itemNo url).2.2 = [url ++ "?"] ∧
      ∀ e, (w.get_thumbnail net fs itemNo url).1 = .error e → e.isIkea = true) ∧
    (fs.pathExists (modelCachePath w itemNo) = true →
      (w.get_model net fs itemNo).2.2 = []) ∧
    (fs.pathExists (modelCachePath w itemNo) = false →
      (∀ e, (w.get_model net fs itemNo).1 = .error e → e.isIkea = true) ∧
      ((w.get_model net fs itemNo).2.2 = [roteraExistsUrl w itemNo ++ "?"] ∨
       (w.get_model net fs itemNo).2.2 =
         [roteraExistsUrl w itemNo ++ "?", roteraModelUrl w itemNo ++ "?"] ∨
       ∃ m, (w.get_model net fs itemNo).2.2 =
         [roteraExistsUrl w itemNo ++ "?", roteraModelUrl w itemNo ++ "?", m])) := by
  obtain ⟨hs1, hs2, hs3⟩ := search_wraps w net query
  refine ⟨hs1, hs2, hs3, (get_pip_log w net fs itemNo).1, ?_, ?_, ?_, ?_, ?_⟩
  · intro hc
    exact ⟨(get_pip_log w net fs itemNo).2 hc,
      fun e he => get_pip_fresh_error_ikea w net fs itemNo e hc he⟩
  · intro hc
    exact (get_thumbnail_log w net fs itemNo url).1 hc
  · intro hc
    exact ⟨(get_thumbnail_log w net fs itemNo url).2 hc,
      fun e he => get_thumbnail_error_ikea w net fs itemNo url e he⟩
  · intro hc
    rw [get_model_cached_eval w net fs itemNo hc]
  · intro hc
    refine ⟨fun e he => get_model_error_ikea w net fs itemNo e he, ?_⟩
    rcases get_model_fresh_cases w net fs itemNo hc with
      ⟨e0, log0, heq, -, hsh⟩ | ⟨d, m, heq⟩
    · rw [heq]
      rcases hsh with h1 | h1 | ⟨m, h1⟩
      · exact .inl (by rw [h1])
      · exact .inr (.inl (by rw [h1]))
      · exact .inr (.inr ⟨m, by rw [h1]⟩)
    · rw [heq]
      exact .inr (.inr ⟨m, rfl⟩)

/-- Witness for `request_wrapping_amended`: on an empty cache with a dead
network, `search` fetches once and wraps the failure, `get_pip` fetches the
PIP URL once and raises `IkeaException`, and `get_model` stops after the
first request. -/
theorem request_wrapping_amended_witness :
    resultIsIkeaErr (IkeaApiWrapper.search wEx netDead "chair").1 = true ∧
    (IkeaApiWrapper.get_pip wEx netDead fsEmpty "123").2.2 =
      [pipUrlOf wEx "123" ++ "?"] ∧
    resultIsIkeaErr (IkeaApiWrapper.get_model wEx netDead fsEmpty "123").1 = true ∧
    (IkeaApiWrapper.get_model wEx netDead fsEmpty "123").2.2 =
      [roteraExistsUrl wEx "123" ++ "?"] := by
  have h := request_wrapping_amended wEx netDead fsEmpty "chair" "123" "http://a"
  refine ⟨h.2.1 "network unreachable" rfl, (h.2.2.2.2.1 rfl).1, ?_, rfl⟩
  have hik := (h.2.2.2.2.2.2.2.2 rfl).1
  have herr : (IkeaApiWrapper.get_model wEx netDead fsEmpty "123").1 =
      .error (.ikeaException ("Error downloading model for #123: " ++
        ("Error fetching " ++ roteraExistsUrl wEx "123" ++ ": " ++
          "network unreachable"))) := rfl
  rw [herr] at hik ⊢
  exact hik _ rfl

/-- A present key can be read. -/
theorem hasKey_getKey (p : Json) (f : String) (h : p.hasKey f = true) :
    ∃ v, p.getKey f = .ok v := by
  cases p with
  | obj fields =>
      have h2 : (fields.lookup f).isSome = true := h
      cases hl : fields.lookup f with
      | none => rw [hl] at h2; simp at h2
      | some v => exact ⟨v, by simp [Json.getKey, hl]⟩
  | null => simp [Json.hasKey] at h
  | bool b => simp [Json.hasKey] at h
  | num n => simp [Json.hasKey] at h
  | str s => simp [Json.hasKey] at h
  | arr l => simp [Json.hasKey] at h

/-- The emptiness of the missing-field list matches the conjunction of the
four presence checks. -/
theorem missing_isEmpty (p : Json) :
    (((["itemNo", "mainImageUrl", "mainImageAlt", "pipUrl"] : List String).filter
      (fun field => !(p.hasKey field))).isEmpty) =
    (p.hasKey "itemNo" && p.hasKey "mainImageUrl" && p.hasKey "mainImageAlt" &&
      p.hasKey "pipUrl") := by
  cases h1 : p.hasKey "itemNo" <;> cases h2 : p.hasKey "mainImageUrl" <;>
    cases h3 : p.hasKey "mainImageAlt" <;> cases h4 : p.hasKey "pipUrl" <;>
    simp [List.filter, h1, h2, h3, h4]

/-- The search post-processing loop computes exactly the claimed filter,
provided every ART product that misses a required field still carries the
`name` used by the skip-logging. -/
theorem searchLoop_spec (items : List Json)
    (hitems : ∀ i ∈ items, ∃ p, i.getKey "product" = .ok p ∧
      ∃ t, p.getKey "itemType" = .ok t ∧
        (t.isStrEq "ART" = true →
          (p.hasKey "itemNo" && p.hasKey "mainImageUrl" && p.hasKey "mainImageAlt" &&
            p.hasKey "pipUrl") = true ∨ p.hasKey "name" = true)) :
    searchLoop items = .ok (searchSpecFilter items) := by
  induction items with
  | nil => rfl
  | cons i rest ih =>
      obtain ⟨p, hp, t, ht, hcond⟩ := hitems i (List.mem_cons_self i rest)
      have ihr := ih (fun j hj => hitems j (List.mem_cons_of_mem i hj))
      cases hart : t.isStrEq "ART" with
      | false =>
          have hstep : searchLoop (i :: rest) = searchLoop rest := by
            simp [searchLoop, hp, ht, hart]
          have hspec : searchSpecFilter (i :: rest) = searchSpecFilter rest := by
            simp [searchSpecFilter, List.filterMap_cons, hp, ht, hart]
          rw [hstep, hspec]
          exact ihr
      | true =>
          cases hall : (p.hasKey "itemNo" && p.hasKey "mainImageUrl" &&
              p.hasKey "mainImageAlt" && p.hasKey "pipUrl") with
          | true =>
              have hmiss : (((["itemNo", "mainImageUrl", "mainImageAlt", "pipUrl"] :
                  List String).filter
                  (fun field => !(p.hasKey field))).isEmpty) = true := by
                rw [missing_isEmpty]; exact hall
              obtain ⟨⟨⟨hk1, hk2⟩, hk3⟩, hk4⟩ :
                  ((p.hasKey "itemNo" = true ∧ p.hasKey "mainImageUrl" = true) ∧
                    p.hasKey "mainImageAlt" = true) ∧ p.hasKey "pipUrl" = true := by
                simpa [Bool.and_eq_true] using hall
              obtain ⟨v1, hv1⟩ := hasKey_getKey p "itemNo" hk1
              obtain ⟨v2, hv2⟩ := hasKey_getKey p "mainImageUrl" hk2
              obtain ⟨v3, hv3⟩ := hasKey_getKey p "mainImageAlt" hk3
              obtain ⟨v4, hv4⟩ := hasKey_getKey p "pipUrl" hk4
              have hstep : searchLoop (i :: rest) =
                  match searchLoop rest with
                  | .error e => .error e
                  | .ok restResults =>
                      .ok (Json.obj [("itemNo", v1), ("mainImageUrl", v2),
                        ("mainImageAlt", v3), ("pipUrl", v4)] :: restResults) := by
                simp [searchLoop, hp, ht, hart, hmiss, hv1, hv2, hv3, hv4]
              have hspec : searchSpecFilter (i :: rest) =
                  Json.obj [("itemNo", v1), ("mainImageUrl", v2), ("mainImageAlt", v3),
                    ("pipUrl", v4)] :: searchSpecFilter rest := by
                simp [searchSpecFilter, List.filterMap_cons, hp, ht, hart, hk1, hk2,
                  hk3, hk4, hv1, hv2, hv3, hv4]
              rw [hstep, ihr, hspec]
          | false =>
              have hname : p.hasKey "name" = true := by
                rcases hcond hart with h | h
                · rw [hall] at h; cases h
                · exact h
              obtain ⟨vn, hvn⟩ := hasKey_getKey p "name" hname
              have hmiss : (((["itemNo", "mainImageUrl", "mainImageAlt", "pipUrl"] :
                  List String).filter
                  (fun field => !(p.hasKey field))).isEmpty) = false := by
                rw [missing_isEmpty]; exact hall
              have hstep : searchLoop (i :: rest) = searchLoop rest := by
                simp [searchLoop, hp, ht, hart, hmiss, hvn]
              have hspec : searchSpecFilter (i :: rest) = searchSpecFilter rest := by
                have hfail : ¬(((p.hasKey "itemNo" = true ∧
                    p.hasKey "mainImageUrl" = true) ∧
                    p.hasKey "mainImageAlt" = true) ∧ p.hasKey "pipUrl" = true) := by
                  intro hcon
                  rw [hcon.1.1.1, hcon.1.1.2, hcon.1.2, hcon.2] at hall
                  cases hall
                simp [searchSpecFilter, List.filterMap_cons, hp, ht, hart, hfail]
              rw [hstep, hspec]
              exact ihr

/-- A decodable payload surfaces from `_get_json` as its JSON value,
logged as one request. -/
theorem _get_json_net_ok (net : Net) (url : String)
    (params headers : List (String × String)) (j : Json)
    (hn : net (url ++ "?" ++ urlencode params) = .ok (Bytes.json j)) :
    IkeaApiWrapper._get_json net url params headers =
      (.ok j, [url ++ "?" ++ urlencode params]) := by
  unfold IkeaApiWrapper._get_json IkeaApiWrapper._get
  simp [hn, jsonLoads]

/-- Claim C8, counterexample: a response whose single ART product misses the
four required fields and also misses `name` is not silently skipped — the
skip-logging reads `p["name"]` outside the try/except (ikea_lib.py line 81)
and `search` raises `KeyError`, while the claimed filter would return the
empty list. -/
theorem search_filter_counterexample :
    (IkeaApiWrapper.search wEx netSearchBad "chair").1 = .error (.keyError "name") ∧
    searchSpecFilter [Json.obj [("product", pBad)]] = [] := by
  exact ⟨rfl, rfl⟩

/-- Claim C8 as amended: for every well-shaped search response (each item
holds a product with an `itemType`, and every ART product that misses one of
the four required fields still has the `name` used for skip-logging),
`search` returns exactly the products with `itemType = "ART"` containing all
four of `itemNo`, `mainImageUrl`, `mainImageAlt` and `pipUrl`, in response
order, each as a dictionary of exactly those four fields; the other products
are skipped. -/
theorem search_filter_amended (w : IkeaApiWrapper) (net : Net) (query : String)
    (sr a b c : Json) (items : List Json)
    (hn : net (searchUrl w ++ "?" ++ urlencode (searchParams query)) =
      .ok (Bytes.json sr))
    (h1 : sr.getKey "searchResultPage" = .ok a)
    (h2 : a.getKey "products" = .ok b)
    (h3 : b.getKey "main" = .ok c)
    (h4 : c.getKey "items" = .ok (Json.arr items))
    (hitems : ∀ i ∈ items, ∃ p, i.getKey "product" = .ok p ∧
      ∃ t, p.getKey "itemType" = .ok t ∧
        (t.isStrEq "ART" = true →
          (p.hasKey "itemNo" && p.hasKey "mainImageUrl" && p.hasKey "mainImageAlt" &&
            p.hasKey "pipUrl") = true ∨ p.hasKey "name" = true)) :
    w.search net query =
      (.ok (searchSpecFilter items),
       [searchUrl w ++ "?" ++ urlencode (searchParams query)]) := by
  have hj := _get_json_net_ok net (searchUrl w) (searchParams query) [] sr hn
  have hcollect : searchCollect sr = .ok (searchSpecFilter items) := by
    unfold searchCollect
    simp only [h1, h2, h3, h4, Json.pyIter]
    exact searchLoop_spec items hitems
  unfold IkeaApiWrapper.search
  rw [hj]
  change (searchCollect sr, [searchUrl w ++ "?" ++ urlencode (searchParams query)]) =
    (.ok (searchSpecFilter items), [searchUrl w ++ "?" ++ urlencode (searchParams query)])
  rw [hcollect]

/-- Witness for `search_filter_amended`: a response with one complete ART
product, one ART product missing fields but named, and one non-ART product
yields exactly the dictionary for the complete product. -/
theorem search_filter_amended_witness :
    IkeaApiWrapper.search wEx netSearchOk "chair" =
      (.ok (searchSpecFilter searchItemsEx),
       [searchUrl wEx ++ "?" ++ urlencode (searchParams "chair")]) ∧
    searchSpecFilter searchItemsEx =
      [Json.obj [("itemNo", Json.str "12345678"), ("mainImageUrl", Json.str "http://img"),
        ("mainImageAlt", Json.str "a chair"), ("pipUrl", Json.str "http://pip")]] := by
  refine ⟨search_filter_amended wEx netSearchOk "chair" _ _ _ _ searchItemsEx rfl rfl rfl
    rfl rfl ?_, rfl⟩
  intro i hi
  simp only [searchItemsEx, List.mem_cons, List.not_mem_nil, or_false] at hi
  rcases hi with rfl | rfl | rfl
  · exact ⟨pGood, rfl, Json.str "ART", rfl, fun _ => .inl rfl⟩
  · exact ⟨pSkip, rfl, Json.str "ART", rfl, fun _ => .inr rfl⟩
  · exact ⟨pNonArt, rfl, Json.str "SPR", rfl, fun hco => absurd hco (by decide)⟩

/- Scene lemmas: object lookup under the elementary scene operations. -/

theorem findObj_eq_oid (s : Scene) (x : Nat) (o : BObj) (h : findObj s x = some o) :
    o.oid = x ∧ o ∈ s := by
  constructor
  · have := List.find?_some h
    simpa using this
  · exact List.mem_of_find?_eq_some h

theorem findObj_map (f : BObj → BObj) (hf : ∀ o, (f o).oid = o.oid) (s : Scene) (x : Nat) :
    findObj (s.map f) x = (findObj s x).map f := by
  induction s with
  | nil => rfl
  | cons a s ih =>
      simp only [List.map_cons, findObj, List.find?_cons] at *
      rw [hf a]
      cases h : (a.oid == x) with
      | true => simp
      | false => simpa using ih

theorem findObj_eq_none_iff (s : Scene) (x : Nat) :
    findObj s x = none ↔ ∀ o ∈ s, o.oid ≠ x := by
  simp [findObj, List.find?_eq_none]

theorem findObj_filter_ne (s : Scene) (i x : Nat) (hxi : x ≠ i) :
    findObj (s.filter (fun o => o.oid != i)) x = findObj s x := by
  induction s with
  | nil => rfl
  | cons a s ih =>
      by_cases ha : a.oid = i
      · have hax : (a.oid == x) = false := by
          simp [ha]
          exact fun h => hxi h.symm
        simp only [List.filter_cons, ha]
        simpa [findObj, List.find?_cons, hax] using ih
      · have hkeep : (a.oid != i) = true := by simpa using ha
        simp only [List.filter_cons, hkeep, if_true]
        simp only [findObj, List.find?_cons] at *
        cases h : (a.oid == x) with
        | true => simp
        | false => simpa using ih

theorem findObj_filter_self (s : Scene) (i : Nat) :
    findObj (s.filter (fun o => o.oid != i)) i = none := by
  rw [findObj_eq_none_iff]
  intro o ho
  have := List.of_mem_filter ho
  simpa using this

theorem findObj_mapAt (g : BObj → BObj) (hg : ∀ o, (g o).oid = o.oid) (s : Scene)
    (i x : Nat) :
    findObj (s.map (fun o => if o.oid == i then g o else o)) x =
      (findObj s x).map (fun o => if o.oid == i then g o else o) := by
  apply findObj_map
  intro o
  cases h : (o.oid == i) with
  | true => simp [h, hg o]
  | false => simp [h]

theorem findObj_setParent_other (s : Scene) (i p x) (hxi : x ≠ i) :
    findObj (setParent s i p) x = findObj s x := by
  unfold setParent
  rw [findObj_mapAt (fun o => { o with parent := p }) (fun o => rfl) s i x]
  cases h : findObj s x with
  | none => rfl
  | some o =>
      have hoid := (findObj_eq_oid s x o h).1
      have hne : ¬ o.oid = i := by rw [hoid]; exact hxi
      simp [hne]

theorem findObj_setParent_self (s : Scene) (i p) (o : BObj) (h : findObj s i = some o) :
    findObj (setParent s i p) i = some { o with parent := p } := by
  unfold setParent
  rw [findObj_mapAt (fun o => { o with parent := p }) (fun o => rfl) s i i, h]
  have hoid := (findObj_eq_oid s i o h).1
  simp [hoid]

theorem findObj_setName_other (s : Scene) (i n x) (hxi : x ≠ i) :
    findObj (setName s i n) x = findObj s x := by
  unfold setName
  rw [findObj_mapAt (fun o => { o with name := n }) (fun o => rfl) s i x]
  cases h : findObj s x with
  | none => rfl
  | some o =>
      have hoid := (findObj_eq_oid s x o h).1
      have hne : ¬ o.oid = i := by rw [hoid]; exact hxi
      simp [hne]

theorem findObj_setName_self (s : Scene) (i n) (o : BObj) (h : findObj s i = some o) :
    findObj (setName s i n) i = some { o with name := n } := by
  unfold setName
  rw [findObj_mapAt (fun o => { o with name := n }) (fun o => rfl) s i i, h]
  have hoid := (findObj_eq_oid s i o h).1
  simp [hoid]

theorem findObj_setProp_other (s : Scene) (i k v x) (hxi : x ≠ i) :
    findObj (setProp s i k v) x = findObj s x := by
  unfold setProp
  rw [findObj_mapAt (fun o =>
    { o with props := ((k, v) :: List.filter (fun kv => kv.1 != k) o.props) })
    (fun o => rfl) s i x]
  cases h : findObj s x with
  | none => rfl
  | some o =>
      have hoid := (findObj_eq_oid s x o h).1
      have hne : ¬ o.oid = i := by rw [hoid]; exact hxi
      simp [hne]

theorem findObj_setProp_self (s : Scene) (i k v) (o : BObj) (h : findObj s i = some o) :
    findObj (setProp s i k v) i =
      some { o with props := ((k, v) :: List.filter (fun kv => kv.1 != k) o.props) } := by
  unfold setProp
  rw [findObj_mapAt (fun o =>
    { o with props := ((k, v) :: List.filter (fun kv => kv.1 != k) o.props) })
    (fun o => rfl) s i i, h]
  have hoid := (findObj_eq_oid s i o h).1
  simp [hoid]

theorem findObj_removeObj_self (s : Scene) (i : Nat) :
    findObj (removeObj s i) i = none := by
  unfold removeObj
  rw [findObj_map (fun o => if o.parent == some i then { o with parent := none } else o)
    (by intro o; cases h : (o.parent == some i) <;> simp [h]) _ i,
    findObj_filter_self]
  rfl

theorem findObj_removeObj_other (s : Scene) (i x : Nat) (hxi : x ≠ i) :
    findObj (removeObj s i) x =
      (findObj s x).map (fun o => if o.parent == some i then { o with parent := none }
        else o) := by
  unfold removeObj
  have hpres : ∀ o : BObj,
      ((fun o => if o.parent == some i then { o with parent := none } else o) o).oid =
        o.oid := by
    intro o
    cases h : (o.parent == some i) <;> simp [h]
  rw [findObj_map _ hpres, findObj_filter_ne s i x hxi]

/- Scene lemmas: identity uniqueness and the children/parent chains. -/

theorem findObj_of_mem_nodup (s : Scene) (hn : (s.map (fun o => o.oid)).Nodup)
    (o : BObj) (ho : o ∈ s) : findObj s o.oid = some o := by
  induction s with
  | nil => cases ho
  | cons a s ih =>
      rcases List.mem_cons.mp ho with rfl | hmem
      · simp [findObj, List.find?_cons]
      · have hne : (a.oid == o.oid) = false := by
          have hnotin : a.oid ∉ s.map (fun o => o.oid) :=
            (List.nodup_cons.mp (by simpa using hn)).1
          have : o.oid ∈ s.map (fun o => o.oid) := List.mem_map_of_mem _ hmem
          simp only [beq_eq_false_iff_ne, ne_eq]
          intro hcon
          exact hnotin (hcon ▸ this)
        simp only [findObj, List.find?_cons, hne]
        exact ih (List.nodup_cons.mp (by simpa using hn)).2 hmem

theorem eq_of_mem_nodup_oid (s : Scene) (hn : (s.map (fun o => o.oid)).Nodup)
    (o o' : BObj) (ho : o ∈ s) (ho' : o' ∈ s) (heq : o.oid = o'.oid) : o = o' := by
  have h1 := findObj_of_mem_nodup s hn o ho
  have h2 := findObj_of_mem_nodup s hn o' ho'
  rw [heq] at h1
  rw [h1] at h2
  exact (Option.some.injEq .. ▸ h2)

theorem climbTop_props (s : Scene) : ∀ (fuel : Nat) (o top : BObj), o ∈ s →
    climbTop s o fuel = some top → top ∈ s ∧ top.parent = none := by
  intro fuel
  induction fuel with
  | zero => intro o top _ h; cases h
  | succ fuel ih =>
      intro o top ho h
      unfold climbTop at h
      cases hp : o.parent with
      | none =>
          simp only [hp] at h
          cases h
          exact ⟨ho, hp⟩
      | some p =>
          simp only [hp] at h
          cases hf : findObj s p with
          | none => simp only [hf] at h; cases h
          | some po =>
              simp only [hf] at h
              exact ih po top (findObj_eq_oid s p po hf).2 h

theorem children_recursive_subset (s : Scene) (t : Nat) (o : BObj)
    (h : o ∈ children_recursive s t) : o ∈ s :=
  (List.mem_filter.mp h).1

theorem children_recursive_ids_nodup (s : Scene) (hn : (s.map (fun o => o.oid)).Nodup)
    (t : Nat) : ((children_recursive s t).map (fun o => o.oid)).Nodup := by
  apply List.Nodup.sublist _ hn
  exact List.Sublist.map _ (List.filter_sublist s)

/-- An object with no parent is not among its own recursive children. -/
theorem top_not_own_child (s : Scene) (hn : (s.map (fun o => o.oid)).Nodup)
    (top : BObj) (htm : top ∈ s) (htp : top.parent = none) :
    top.oid ∉ (children_recursive s top.oid).map (fun o => o.oid) := by
  intro hmem
  obtain ⟨o, ho, hoid⟩ := List.mem_map.mp hmem
  have hos : o ∈ s := children_recursive_subset s top.oid o ho
  have : o = top := eq_of_mem_nodup_oid s hn o top hos htm hoid
  subst this
  have hpred := (List.mem_filter.mp ho).2
  unfold parentChainIds at hpred
  rw [htp] at hpred
  simp at hpred

/- Object-wise scene transformations and what they preserve. -/

theorem parentChainIds_map (f : BObj → BObj) (hoid : ∀ o, (f o).oid = o.oid)
    (hpar : ∀ o, (f o).parent = o.parent) (s : Scene) :
    ∀ (fuel : Nat) (o : BObj),
      parentChainIds (s.map f) (f o) fuel = parentChainIds s o fuel := by
  intro fuel
  induction fuel with
  | zero => intro o; rfl
  | succ fuel ih =>
      intro o
      unfold parentChainIds
      rw [hpar o]
      cases hp : o.parent with
      | none => rfl
      | some p =>
          dsimp only
          rw [findObj_map f hoid s p]
          cases hf : findObj s p with
          | none => rfl
          | some po => simpa using ih po

theorem children_recursive_map (f : BObj → BObj) (hoid : ∀ o, (f o).oid = o.oid)
    (hpar : ∀ o, (f o).parent = o.parent) (s : Scene) (t : Nat) :
    children_recursive (s.map f) t = (children_recursive s t).map f := by
  unfold children_recursive
  rw [List.length_map, List.filter_map]
  congr 1
  apply List.filter_congr
  intro o _
  show ((parentChainIds (s.map f) (f o) (s.length + 1)).contains t) =
    ((parentChainIds s o (s.length + 1)).contains t)
  rw [parentChainIds_map f hoid hpar s (s.length + 1) o]

theorem MapsToSkel.findObj_eq (s s' : Scene) (f : BObj → BObj)
    (h : MapsToSkel s s' f) (x : Nat) : findObj s' x = (findObj s x).map f := by
  obtain ⟨heq, hoid, -, -⟩ := h
  rw [heq]
  exact findObj_map f hoid s x

theorem MapsToSkel.children_eq (s s' : Scene) (f : BObj → BObj)
    (h : MapsToSkel s s' f) (t : Nat) :
    children_recursive s' t = (children_recursive s t).map f := by
  obtain ⟨heq, hoid, hpar, -⟩ := h
  rw [heq]
  exact children_recursive_map f hoid hpar s t

theorem MapsToSkel.ids_eq (s s' : Scene) (f : BObj → BObj) (h : MapsToSkel s s' f) :
    s'.map (fun o => o.oid) = s.map (fun o => o.oid) := by
  obtain ⟨heq, hoid, -, -⟩ := h
  rw [heq, List.map_map]
  exact List.map_congr_left (fun o _ => hoid o)

theorem MapsToSkel.refl (s : Scene) : MapsToSkel s s id := by
  refine ⟨by simp, fun o => rfl, fun o => rfl, fun o => rfl⟩

theorem mapsToSkel_comp (s s' s'' : Scene) (f g : BObj → BObj)
    (h1 : MapsToSkel s s' f) (h2 : MapsToSkel s' s'' g) :
    MapsToSkel s s'' (g ∘ f) := by
  obtain ⟨e1, o1, p1, t1⟩ := h1
  obtain ⟨e2, o2, p2, t2⟩ := h2
  refine ⟨by rw [e2, e1, List.map_map], ?_, ?_, ?_⟩
  · intro o; simp [Function.comp, o2, o1]
  · intro o; simp [Function.comp, p2, p1]
  · intro o; simp [Function.comp, t2, t1]

theorem mapsToNames_comp (s s' s'' : Scene) (f g : BObj → BObj)
    (h1 : MapsToNames s s' f) (h2 : MapsToNames s' s'' g) :
    MapsToNames s s'' (g ∘ f) := by
  refine ⟨mapsToSkel_comp s s' s'' f g h1.1 h2.1, ?_⟩
  intro o
  simp [Function.comp, h2.2, h1.2]

theorem setName_mapsTo (s : Scene) (i : Nat) (n : String) :
    MapsToNames s (setName s i n)
      (fun o => if o.oid == i then { o with name := n } else o) := by
  refine ⟨⟨rfl, ?_, ?_, ?_⟩, ?_⟩ <;>
    (intro o; cases h : (o.oid == i) <;> simp [h])

theorem setProp_mapsTo (s : Scene) (i : Nat) (k v : String) :
    MapsToSkel s (setProp s i k v)
      (fun o => if o.oid == i then
        { o with props := ((k, v) :: List.filter (fun kv => kv.1 != k) o.props) }
        else o) := by
  refine ⟨rfl, ?_, ?_, ?_⟩ <;>
    (intro o; cases h : (o.oid == i) <;> simp [h])

theorem tagAll_mapsTo (ids : List Nat) : ∀ (s : Scene) (v : String),
    ∃ f, MapsToSkel s (tagAll s ids v) f := by
  induction ids with
  | nil => intro s v; exact ⟨id, MapsToSkel.refl s⟩
  | cons i rest ih =>
      intro s v
      obtain ⟨g, hg⟩ := ih (setProp s i "ikeaItemNo" v) v
      refine ⟨g ∘ _, mapsToSkel_comp _ _ _ _ g (setProp_mapsTo s i "ikeaItemNo" v) ?_⟩
      exact hg

theorem renameChildren_mapsTo (ids : List Nat) (topId : Nat) (s : Scene) :
    ∃ f, MapsToNames s (renameChildren s topId ids) f := by
  unfold renameChildren
  generalize (ids.enum) = l
  induction l generalizing s with
  | nil => exact ⟨id, ⟨MapsToSkel.refl s, fun o => rfl⟩⟩
  | cons ni rest ih =>
      simp only [List.foldl_cons]
      cases hf : findObj s topId with
      | none => exact ih s
      | some topo =>
          obtain ⟨g, hg⟩ :=
            ih (setName s ni.2 (topo.name ++ " Mesh " ++ decimalStr (ni.1 + 1)))
          exact ⟨g ∘ _, mapsToNames_comp _ _ _ _ g
            (setName_mapsTo s ni.2 (topo.name ++ " Mesh " ++ decimalStr (ni.1 + 1))) hg⟩

/- Flattening-loop lemmas. -/

theorem findObj_setParent_none (s : Scene) (i : Nat) (p : Option Nat) (x : Nat)
    (h : findObj s x = none) : findObj (setParent s i p) x = none := by
  unfold setParent
  rw [findObj_mapAt (fun o => { o with parent := p }) (fun o => rfl) s i x, h]
  rfl

theorem findObj_removeObj_none (s : Scene) (i x : Nat) (h : findObj s x = none) :
    findObj (removeObj s i) x = none := by
  by_cases hx : x = i
  · rw [hx]; exact findObj_removeObj_self s i
  · rw [findObj_removeObj_other s i x hx, h]; rfl

theorem findObj_flattenStep_none (topId : Nat) (s : Scene) (i x : Nat)
    (h : findObj s x = none) : findObj (flattenStep topId s i) x = none := by
  unfold flattenStep
  cases hfi : findObj s i with
  | none => exact h
  | some oi =>
      have h1 : findObj (if oi.otype == "MESH" then setParent s i (some topId) else s)
          x = none := by
        cases hm : (oi.otype == "MESH") with
        | true => simpa [hm] using (findObj_setParent_none s i (some topId) x h)
        | false => simpa [hm] using h
      cases he : (oi.otype == "EMPTY") with
      | true =>
          simp only [he, if_true]
          exact findObj_removeObj_none _ i x h1
      | false => simpa [he] using h1

/-- Processing a different object keeps an object in place, with its identity
and type; its parent either stays or is cleared by a removal. -/
theorem findObj_flattenStep_keep (topId : Nat) (s : Scene) (i x : Nat) (o : BObj)
    (hx : x ≠ i) (ho : findObj s x = some o) :
    ∃ o', findObj (flattenStep topId s i) x = some o' ∧ o'.oid = o.oid ∧
      o'.otype = o.otype ∧ o'.name = o.name ∧ o'.props = o.props ∧
      (o'.parent = o.parent ∨ o'.parent = none) := by
  unfold flattenStep
  cases hfi : findObj s i with
  | none => exact ⟨o, ho, rfl, rfl, rfl, rfl, .inl rfl⟩
  | some oi =>
      have h1 : findObj (if oi.otype == "MESH" then setParent s i (some topId) else s)
          x = some o := by
        cases hm : (oi.otype == "MESH") with
        | true => simpa [hm] using (findObj_setParent_other s i (some topId) x hx).trans ho
        | false => simpa [hm] using ho
      cases he : (oi.otype == "EMPTY") with
      | true =>
          simp only [he, if_true]
          rw [findObj_removeObj_other _ i x hx, h1]
          by_cases hp : o.parent = some i
          · exact ⟨{ o with parent := none }, by simp [hp], rfl, rfl, rfl, rfl, .inr rfl⟩
          · exact ⟨o, by simp [hp], rfl, rfl, rfl, rfl, .inl rfl⟩
      | false =>
          simp only [he, Bool.false_eq_true, if_false]
          exact ⟨o, h1, rfl, rfl, rfl, rfl, .inl rfl⟩

/-- Full preservation when the object is untouched: it is not processed, and
no processed object is its parent. -/
theorem findObj_flattenStep_other (topId : Nat) (s : Scene) (i x : Nat) (o : BObj)
    (hx : x ≠ i) (ho : findObj s x = some o) (hp : o.parent ≠ some i) :
    findObj (flattenStep topId s i) x = some o := by
  unfold flattenStep
  cases hfi : findObj s i with
  | none => exact ho
  | some oi =>
      have h1 : findObj (if oi.otype == "MESH" then setParent s i (some topId) else s)
          x = some o := by
        cases hm : (oi.otype == "MESH") with
        | true => simpa [hm] using (findObj_setParent_other s i (some topId) x hx).trans ho
        | false => simpa [hm] using ho
      cases he : (oi.otype == "EMPTY") with
      | true =>
          simp only [he, if_true]
          rw [findObj_removeObj_other _ i x hx, h1]
          simp [hp]
      | false => simpa [he] using h1

theorem flatten_none (topId : Nat) : ∀ (L : List Nat) (s : Scene) (x : Nat),
    findObj s x = none → findObj (flattenAll topId s L) x = none := by
  intro L
  induction L with
  | nil => intro s x h; exact h
  | cons i L ih =>
      intro s x h
      exact ih (flattenStep topId s i) x (findObj_flattenStep_none topId s i x h)

theorem flatten_stable (topId : Nat) : ∀ (L : List Nat) (s : Scene) (x : Nat) (o : BObj),
    findObj s x = some o → x ∉ L → (∀ q, o.parent = some q → q ∉ L) →
    findObj (flattenAll topId s L) x = some o := by
  intro L
  induction L with
  | nil => intro s x o h _ _; exact h
  | cons i L ih =>
      intro s x o h hx hq
      have hxi : x ≠ i := fun hcon => hx (hcon ▸ List.mem_cons_self i L)
      have hpi : o.parent ≠ some i := by
        intro hcon
        exact hq i hcon (List.mem_cons_self i L)
      have hstep := findObj_flattenStep_other topId s i x o hxi h hpi
      exact ih (flattenStep topId s i) x o hstep
        (fun hcon => hx (List.mem_cons_of_mem i hcon))
        (fun q hcq hmem => hq q hcq (List.mem_cons_of_mem i hmem))

/-- The flattening loop over a duplicate-free snapshot that does not contain
the top object: every processed mesh ends up a child of the top object, and
every processed empty is removed. -/
theorem flatten_spec (topId : Nat) : ∀ (L : List Nat) (s : Scene),
    L.Nodup → topId ∉ L → ∀ x ∈ L, ∀ o, findObj s x = some o →
    (o.otype = "MESH" → ∃ o', findObj (flattenAll topId s L) x = some o' ∧
       o'.oid = o.oid ∧ o'.otype = "MESH" ∧ o'.parent = some topId) ∧
    (o.otype = "EMPTY" → findObj (flattenAll topId s L) x = none) := by
  intro L
  induction L with
  | nil => intro s _ _ x hx; cases hx
  | cons i L ih =>
      intro s hnd htop x hx o ho
      rcases List.mem_cons.mp hx with rfl | hxL
      · -- x is processed by this step
        constructor
        · intro hmesh
          have hmb : (o.otype == "MESH") = true := by simp [hmesh]
          have heb : (o.otype == "EMPTY") = false := by simp [hmesh]
          have hstep : findObj (flattenStep topId s x) x =
              some { o with parent := some topId } := by
            unfold flattenStep
            rw [ho]
            simp only [hmb, if_true, heb, Bool.false_eq_true, if_false]
            exact findObj_setParent_self s x (some topId) o ho
          refine ⟨{ o with parent := some topId }, ?_, rfl, hmesh, rfl⟩
          have hxL2 : x ∉ L := (List.nodup_cons.mp hnd).1
          have htop2 : topId ∉ L := fun hcon => htop (List.mem_cons_of_mem x hcon)
          exact flatten_stable topId L (flattenStep topId s x) x
            { o with parent := some topId } hstep hxL2
            (fun q hcq => by
              simp only at hcq
              cases hcq
              exact htop2)
        · intro hempty
          have hmb : (o.otype == "MESH") = false := by simp [hempty]
          have heb : (o.otype == "EMPTY") = true := by simp [hempty]
          have hstep : findObj (flattenStep topId s x) x = none := by
            unfold flattenStep
            rw [ho]
            simp only [hmb, Bool.false_eq_true, if_false, heb, if_true]
            exact findObj_removeObj_self s x
          exact flatten_none topId L (flattenStep topId s x) x hstep
      · -- x is processed later
        have hxi : x ≠ i := by
          intro hcon
          exact (List.nodup_cons.mp hnd).1 (hcon ▸ hxL)
        obtain ⟨o', hfo', hoid, hot, -, -, -⟩ :=
          findObj_flattenStep_keep topId s i x o hxi ho
        have hres := ih (flattenStep topId s i) (List.nodup_cons.mp hnd).2
          (fun hcon => htop (List.mem_cons_of_mem i hcon)) x hxL o' hfo'
        constructor
        · intro hmesh
          obtain ⟨o'', h1, h2, h3, h4⟩ := hres.1 (hot.trans hmesh)
          exact ⟨o'', h1, h2.trans (hoid.trans rfl), h3, h4⟩
        · intro hempty
          exact hres.2 (hot.trans hempty)

/- Tagging-loop lemmas. -/

theorem lookup_setProp_head (k v : String) (props : List (String × String)) :
    ((k, v) :: List.filter (fun kv => kv.1 != k) props).lookup k = some v := by
  simp [List.lookup]

theorem tagAll_keeps_tag : ∀ (ids : List Nat) (s : Scene) (v : String) (x : Nat) (o : BObj),
    findObj s x = some o → o.props.lookup "ikeaItemNo" = some v →
    ∃ o', findObj (tagAll s ids v) x = some o' ∧
      o'.props.lookup "ikeaItemNo" = some v := by
  intro ids
  induction ids with
  | nil => exact fun s v x o h ht => ⟨o, h, ht⟩
  | cons i rest ih =>
      intro s v x o h ht
      by_cases hx : x = i
      · have h2 := findObj_setProp_self s i "ikeaItemNo" v o (hx ▸ h)
        rw [hx]
        exact ih (setProp s i "ikeaItemNo" v) v i _ h2
          (lookup_setProp_head "ikeaItemNo" v o.props)
      · have h2 : findObj (setProp s i "ikeaItemNo" v) x = some o :=
          (findObj_setProp_other s i "ikeaItemNo" v x hx).trans h
        exact ih (setProp s i "ikeaItemNo" v) v x o h2 ht

theorem tagAll_tags : ∀ (ids : List Nat) (s : Scene) (v : String) (x : Nat) (o : BObj),
    findObj s x = some o → x ∈ ids →
    ∃ o', findObj (tagAll s ids v) x = some o' ∧
      o'.props.lookup "ikeaItemNo" = some v := by
  intro ids
  induction ids with
  | nil => intro s v x o _ hx; cases hx
  | cons i rest ih =>
      intro s v x o h hx
      by_cases hxi : x = i
      · have h2 := findObj_setProp_self s i "ikeaItemNo" v o (hxi ▸ h)
        rw [hxi]
        exact tagAll_keeps_tag rest (setProp s i "ikeaItemNo" v) v i _ h2
          (lookup_setProp_head "ikeaItemNo" v o.props)
      · have h2 : findObj (setProp s i "ikeaItemNo" v) x = some o :=
          (findObj_setProp_other s i "ikeaItemNo" v x hxi).trans h
        rcases List.mem_cons.mp hx with hcon | hmem
        · exact absurd hcon hxi
        · exact ih (setProp s i "ikeaItemNo" v) v x o h2 hmem

/- Decimal rendering: fuel indifference, value round-trip, injectivity. -/

theorem decDigitsAux_fuel (n : Nat) : ∀ (f1 f2 : Nat), n ≤ f1 → n ≤ f2 →
    decDigitsAux f1 n = decDigitsAux f2 n := by
  induction n using Nat.strong_induction_on with
  | _ n ih =>
      intro f1 f2 h1 h2
      cases n with
      | zero => cases f1 <;> cases f2 <;> rfl
      | succ m =>
          obtain ⟨f1p, rfl⟩ : ∃ f, f1 = f + 1 :=
            ⟨f1 - 1, by omega⟩
          obtain ⟨f2p, rfl⟩ : ∃ f, f2 = f + 1 :=
            ⟨f2 - 1, by omega⟩
          show ((m + 1) % 10) :: decDigitsAux f1p ((m + 1) / 10) =
            ((m + 1) % 10) :: decDigitsAux f2p ((m + 1) / 10)
          have hdiv : (m + 1) / 10 < m + 1 := Nat.div_lt_self (Nat.succ_pos m) (by omega)
          rw [ih ((m + 1) / 10) hdiv f1p f2p (by omega) (by omega)]

theorem decDigits_succ (n : Nat) (h : n ≠ 0) :
    decDigits n = (n % 10) :: decDigits (n / 10) := by
  obtain ⟨m, rfl⟩ : ∃ m, n = m + 1 := ⟨n - 1, by omega⟩
  show decDigitsAux (m + 1) (m + 1) = _
  have hdiv : (m + 1) / 10 < m + 1 := Nat.div_lt_self (Nat.succ_pos m) (by omega)
  show ((m + 1) % 10) :: decDigitsAux m ((m + 1) / 10) = _
  rw [decDigitsAux_fuel ((m + 1) / 10) m ((m + 1) / 10) (by omega) (le_refl _)]
  rfl

theorem decDigits_val (n : Nat) :
    (decDigits n).foldr (fun d acc => d + 10 * acc) 0 = n := by
  induction n using Nat.strong_induction_on with
  | _ n ih =>
      cases hn : n with
      | zero => rfl
      | succ m =>
          rw [decDigits_succ (m + 1) (Nat.succ_ne_zero m), List.foldr_cons]
          have hdiv : (m + 1) / 10 < m + 1 := Nat.div_lt_self (Nat.succ_pos m) (by omega)
          rw [ih ((m + 1) / 10) (hn ▸ hdiv)]
          omega

theorem decDigits_inj (a b : Nat) (h : decDigits a = decDigits b) : a = b := by
  have ha := decDigits_val a
  rw [h, decDigits_val b] at ha
  exact ha.symm

theorem decDigits_lt10 (n : Nat) : ∀ d ∈ decDigits n, d < 10 := by
  induction n using Nat.strong_induction_on with
  | _ n ih =>
      cases hn : n with
      | zero => intro d hd; cases hd
      | succ m =>
          rw [decDigits_succ (m + 1) (Nat.succ_ne_zero m)]
          intro d hd
          rcases List.mem_cons.mp hd with rfl | hmem
          · exact Nat.mod_lt _ (by omega)
          · have hdiv : (m + 1) / 10 < m + 1 :=
              Nat.div_lt_self (Nat.succ_pos m) (by omega)
            exact ih ((m + 1) / 10) (hn ▸ hdiv) d hmem

theorem digitChar_inj (a b : Nat) (ha : a < 10) (hb : b < 10)
    (h : Nat.digitChar a = Nat.digitChar b) : a = b := by
  interval_cases a <;> interval_cases b <;> revert h <;> decide

theorem map_digitChar_inj : ∀ (l1 l2 : List Nat), (∀ d ∈ l1, d < 10) → (∀ d ∈ l2, d < 10) →
    l1.map Nat.digitChar = l2.map Nat.digitChar → l1 = l2 := by
  intro l1
  induction l1 with
  | nil => intro l2 _ _ h; cases l2 with
      | nil => rfl
      | cons b t => cases h
  | cons a t1 ih =>
      intro l2 h1 h2 h
      cases l2 with
      | nil => cases h
      | cons b t2 =>
          simp only [List.map_cons, List.cons.injEq] at h
          have hab := digitChar_inj a b (h1 a (List.mem_cons_self a t1))
            (h2 b (List.mem_cons_self b t2)) h.1
          rw [hab, ih t2 (fun d hd => h1 d (List.mem_cons_of_mem a hd))
            (fun d hd => h2 d (List.mem_cons_of_mem b hd)) h.2]

theorem decimalStr_inj (a b : Nat) (h : decimalStr a = decimalStr b) : a = b := by
  unfold decimalStr at h
  by_cases ha : a = 0 <;> by_cases hb : b = 0
  · rw [ha, hb]
  · exfalso
    rw [if_pos ha, if_neg hb] at h
    have hdata : ("0" : String).data = ((decDigits b).reverse.map Nat.digitChar) :=
      congrArg String.data h
    have hd : (decDigits b).reverse.map Nat.digitChar = ['0'] := hdata.symm
    have : (decDigits b).reverse = [0] := by
      apply map_digitChar_inj
      · intro d hd2; exact decDigits_lt10 b d (List.mem_reverse.mp hd2)
      · intro d hd2; simp at hd2; omega
      · exact hd.trans rfl
    have hb0 : decDigits b = [0] := by
      have := congrArg List.reverse this
      simpa using this
    have := decDigits_val b
    rw [hb0] at this
    simp at this
    exact hb this.symm
  · exfalso
    rw [if_neg ha, if_pos hb] at h
    have hdata : ((decDigits a).reverse.map Nat.digitChar) = ("0" : String).data :=
      congrArg String.data h
    have : (decDigits a).reverse = [0] := by
      apply map_digitChar_inj
      · intro d hd2; exact decDigits_lt10 a d (List.mem_reverse.mp hd2)
      · intro d hd2; simp at hd2; omega
      · exact hdata.trans rfl
    have ha0 : decDigits a = [0] := by
      have := congrArg List.reverse this
      simpa using this
    have := decDigits_val a
    rw [ha0] at this
    simp at this
    exact ha this.symm
  · rw [if_neg ha, if_neg hb] at h
    have hdata := congrArg String.data h
    have hrev : (decDigits a).reverse = (decDigits b).reverse := by
      apply map_digitChar_inj
      · intro d hd2; exact decDigits_lt10 a d (List.mem_reverse.mp hd2)
      · intro d hd2; exact decDigits_lt10 b d (List.mem_reverse.mp hd2)
      · exact hdata
    have : decDigits a = decDigits b := by
      have := congrArg List.reverse hrev
      simpa using this
    exact decDigits_inj a b this

/- Candidate names: injectivity and the first-free-name loop. -/

theorem string_data_append (a b : String) : (a ++ b).data = a.data ++ b.data := rfl

theorem decimalStr_data_len_pos (n : Nat) (h : n ≠ 0) :
    1 ≤ (decimalStr n).data.length := by
  unfold decimalStr
  rw [if_neg h]
  show 1 ≤ ((decDigits n).reverse.map Nat.digitChar).length
  rw [List.length_map, List.length_reverse, decDigits_succ n h]
  simp

theorem candName_inj (base : String) : ∀ (j k : Nat),
    candName base j = candName base k → j = k := by
  have hlen : ∀ m, m ≠ 0 → (candName base m).data.length =
      base.data.length + 3 + (decimalStr (m + 1)).data.length := by
    intro m hm
    unfold candName
    rw [if_neg hm]
    simp only [string_data_append, List.length_append]
    have h1 : ([' ', '('] : List Char).length = 2 := rfl
    have h2 : ([')'] : List Char).length = 1 := rfl
    omega
  intro j k h
  by_cases hj : j = 0 <;> by_cases hk : k = 0
  · rw [hj, hk]
  · exfalso
    have hbase : candName base j = base := by rw [hj]; rfl
    have hlk := hlen k hk
    rw [h] at hbase
    have := congrArg (fun s => s.data.length) hbase
    simp only at this
    rw [hlk] at this
    have hpos := decimalStr_data_len_pos (k + 1) (Nat.succ_ne_zero k)
    omega
  · exfalso
    have hbase : candName base k = base := by rw [hk]; rfl
    have hlj := hlen j hj
    rw [← h] at hbase
    have := congrArg (fun s => s.data.length) hbase
    simp only at this
    rw [hlj] at this
    have hpos := decimalStr_data_len_pos (j + 1) (Nat.succ_ne_zero j)
    omega
  · unfold candName at h
    rw [if_neg hj, if_neg hk] at h
    have hdata := congrArg String.data h
    simp only [string_data_append] at hdata
    have h1 := List.append_cancel_right hdata
    have h2 := List.append_cancel_left h1
    have hXY : decimalStr (j + 1) = decimalStr (k + 1) := by
      apply String.ext
      exact h2
    have := decimalStr_inj (j + 1) (k + 1) hXY
    omega

theorem getByName_isSome_mem (s : Scene) (nm : String)
    (h : (getByName s nm).isSome = true) : nm ∈ s.map (fun o => o.name) := by
  unfold getByName at h
  obtain ⟨o, ho⟩ := Option.isSome_iff_exists.mp h
  have hm := List.mem_of_find?_eq_some ho
  have hp := List.find?_some ho
  simp only [beq_iff_eq] at hp
  exact List.mem_map.mpr ⟨o, hm, hp⟩

/-- Among the first `s.length + 2` candidate names, one is free: the scene
holds only `s.length` names and the candidates are pairwise distinct. -/
theorem exists_fresh_cand (s : Scene) (base : String) :
    ∃ j, j ≤ s.length + 1 ∧ (getByName s (candName base j)).isSome = false := by
  by_contra hcon
  push_neg at hcon
  have hall : ∀ j, j ≤ s.length + 1 → candName base j ∈ s.map (fun o => o.name) := by
    intro j hj
    have hne := hcon j hj
    refine getByName_isSome_mem s _ ?_
    cases h : (getByName s (candName base j)).isSome with
    | false => exact absurd h hne
    | true => rfl
  have hsub : (Finset.range (s.length + 2)).image (fun j => candName base j) ⊆
      (s.map (fun o => o.name)).toFinset := by
    intro nm hnm
    obtain ⟨j, hj, rfl⟩ := Finset.mem_image.mp hnm
    have hjle : j ≤ s.length + 1 := by
      have := Finset.mem_range.mp hj
      omega
    exact List.mem_toFinset.mpr (hall j hjle)
  have hcard1 : ((Finset.range (s.length + 2)).image (fun j => candName base j)).card =
      s.length + 2 := by
    rw [Finset.card_image_of_injective _ (fun a b h => candName_inj base a b h)]
    exact Finset.card_range _
  have hcard2 := Finset.card_le_card hsub
  have hcard3 := List.toFinset_card_le (s.map (fun o => o.name))
  rw [hcard1] at hcard2
  rw [List.length_map] at hcard3
  omega

theorem pickNameLoop_spec (s : Scene) (base : String) : ∀ (fuel k : Nat),
    (∃ j, j ≤ fuel ∧ (getByName s (candName base (k + j))).isSome = false) →
    ∃ i, pickNameLoop s base (k + 1) fuel (candName base k) = candName base (k + i) ∧
      (getByName s (candName base (k + i))).isSome = false ∧
      ∀ t, t < i → (getByName s (candName base (k + t))).isSome = true := by
  intro fuel
  induction fuel with
  | zero =>
      rintro k ⟨j, hj, hfresh⟩
      have hj0 : j = 0 := Nat.le_zero.mp hj
      subst hj0
      exact ⟨0, rfl, hfresh, fun t ht => absurd ht (Nat.not_lt_zero t)⟩
  | succ fuel ih =>
      rintro k ⟨j, hj, hfresh⟩
      cases hk : (getByName s (candName base k)).isSome with
      | false =>
          refine ⟨0, ?_, hk, fun t ht => absurd ht (Nat.not_lt_zero t)⟩
          unfold pickNameLoop
          rw [hk]
          simp
      | true =>
          have hj0 : j ≠ 0 := by
            intro hcon
            subst hcon
            simp only [Nat.add_zero] at hfresh
            rw [hfresh] at hk
            cases hk
          have hj1 : j - 1 ≤ fuel := by omega
          have hfresh2 : (getByName s (candName base (k + 1 + (j - 1)))).isSome = false := by
            have heq : k + 1 + (j - 1) = k + j := by omega
            rw [heq]
            exact hfresh
          obtain ⟨i, hi1, hi2, hi3⟩ := ih (k + 1) ⟨j - 1, hj1, hfresh2⟩
          refine ⟨i + 1, ?_, ?_, ?_⟩
          · have hcand : base ++ " (" ++ decimalStr (k + 1 + 1) ++ ")" =
                candName base (k + 1) := by
              unfold candName
              rw [if_neg (Nat.succ_ne_zero k)]
            unfold pickNameLoop
            simp only [hk, eq_self_iff_true, if_true, hcand, hi1]
            congr 1
            omega
          · have : k + (i + 1) = k + 1 + i := by omega
            rw [this]
            exact hi2
          · intro t ht
            cases t with
            | zero => simpa using hk
            | succ t2 =>
                have : k + (t2 + 1) = k + 1 + t2 := by omega
                rw [this]
                exact hi3 t2 (by omega)

/-- The dedup loop picks the first candidate name not carried by any object:
the PIP name itself, else `name (2)`, `name (3)`, and so on. -/
theorem pickName_spec (s : Scene) (base : String) :
    ∃ k, pickName s base = candName base k ∧
      (getByName s (candName base k)).isSome = false ∧
      ∀ t, t < k → (getByName s (candName base t)).isSome = true := by
  obtain ⟨j, hj, hfresh⟩ := exists_fresh_cand s base
  have hstart := pickNameLoop_spec s base (s.length + 1) 0
    ⟨j, hj, by simpa using hfresh⟩
  obtain ⟨i, hi1, hi2, hi3⟩ := hstart
  refine ⟨i, ?_, by simpa using hi2, fun t ht => by simpa using hi3 t ht⟩
  unfold pickName
  have hbase : candName base 0 = base := rfl
  rw [← hbase]
  simpa using hi1

/- Child-renaming loop lemmas. -/

theorem renameLoop_stable (topId : Nat) : ∀ (l : List (Nat × Nat)) (s : Scene) (x : Nat),
    (∀ ni ∈ l, ni.2 ≠ x) →
    findObj (l.foldl (fun sc ni =>
      match findObj sc topId with
      | some topo => setName sc ni.2 (topo.name ++ " Mesh " ++ decimalStr (ni.1 + 1))
      | none => sc) s) x = findObj s x := by
  intro l
  induction l with
  | nil => intro s x _; rfl
  | cons ni rest ih =>
      intro s x hne
      rw [List.foldl_cons]
      have hstep : findObj
          (match findObj s topId with
           | some topo => setName s ni.2 (topo.name ++ " Mesh " ++ decimalStr (ni.1 + 1))
           | none => s) x = findObj s x := by
        cases ht : findObj s topId with
        | none => rfl
        | some topo =>
            exact findObj_setName_other s ni.2 _ x
              (fun hcon => hne ni (List.mem_cons_self ni rest) (hcon ▸ rfl))
      rw [ih _ x (fun mi hmi => hne mi (List.mem_cons_of_mem ni hmi)), hstep]

theorem snd_mem_of_mem_enumFrom {l : List Nat} {k : Nat} {ni : Nat × Nat}
    (h : ni ∈ l.enumFrom k) : ni.2 ∈ l := by
  have := List.enumFrom_map_snd k l
  rw [← this]
  exact List.mem_map_of_mem Prod.snd h

theorem renameLoop_names (topId : Nat) (topo : BObj) : ∀ (ids : List Nat) (k : Nat)
    (s : Scene), ids.Nodup → topId ∉ ids → findObj s topId = some topo →
    (∀ i ∈ ids, (findObj s i).isSome = true) →
    findObj ((ids.enumFrom k).foldl (fun sc ni =>
      match findObj sc topId with
      | some t => setName sc ni.2 (t.name ++ " Mesh " ++ decimalStr (ni.1 + 1))
      | none => sc) s) topId = some topo ∧
    ∀ (j : Nat) (hj : j < ids.length), ∃ o',
      findObj ((ids.enumFrom k).foldl (fun sc ni =>
        match findObj sc topId with
        | some t => setName sc ni.2 (t.name ++ " Mesh " ++ decimalStr (ni.1 + 1))
        | none => sc) s) (ids.get ⟨j, hj⟩) = some o' ∧
      o'.name = topo.name ++ " Mesh " ++ decimalStr (k + j + 1) := by
  intro ids
  induction ids with
  | nil =>
      intro k s _ _ htopo _
      exact ⟨htopo, fun j hj => absurd hj (by simp)⟩
  | cons i rest ih =>
      intro k s hnd htop htopo hmem
      have hir : i ∉ rest := (List.nodup_cons.mp hnd).1
      have htopi : topId ≠ i := fun hcon => htop (hcon ▸ List.mem_cons_self i rest)
      obtain ⟨oi, hoi⟩ := Option.isSome_iff_exists.mp
        (hmem i (List.mem_cons_self i rest))
      have hstep : (List.enumFrom k (i :: rest)).foldl (fun sc ni =>
          match findObj sc topId with
          | some t => setName sc ni.2 (t.name ++ " Mesh " ++ decimalStr (ni.1 + 1))
          | none => sc) s =
        (List.enumFrom (k + 1) rest).foldl (fun sc ni =>
          match findObj sc topId with
          | some t => setName sc ni.2 (t.name ++ " Mesh " ++ decimalStr (ni.1 + 1))
          | none => sc)
          (setName s i (topo.name ++ " Mesh " ++ decimalStr (k + 1))) := by
        show (((k, i) :: List.enumFrom (k + 1) rest).foldl _ s) = _
        rw [List.foldl_cons]
        simp only [htopo]
      set s1 := setName s i (topo.name ++ " Mesh " ++ decimalStr (k + 1)) with hs1
      have htopo1 : findObj s1 topId = some topo := by
        rw [hs1]
        exact (findObj_setName_other s i _ topId htopi).trans htopo
      have hmem1 : ∀ r ∈ rest, (findObj s1 r).isSome = true := by
        intro r hr
        have hri : r ≠ i := fun hcon => hir (hcon ▸ hr)
        rw [hs1, findObj_setName_other s i _ r hri]
        exact hmem r (List.mem_cons_of_mem i hr)
      have hrec := ih (k + 1) s1 (List.nodup_cons.mp hnd).2
        (fun hcon => htop (List.mem_cons_of_mem i hcon)) htopo1 hmem1
      constructor
      · rw [hstep]
        exact hrec.1
      · intro j hj
        cases j with
        | zero =>
            have hget : (i :: rest).get ⟨0, hj⟩ = i := rfl
            rw [hstep, hget]
            have hnotin : ∀ ni ∈ List.enumFrom (k + 1) rest, ni.2 ≠ i := by
              intro ni hni hcon
              exact hir (hcon ▸ snd_mem_of_mem_enumFrom hni)
            rw [renameLoop_stable topId (List.enumFrom (k + 1) rest) s1 i hnotin]
            refine ⟨{ oi with name := topo.name ++ " Mesh " ++ decimalStr (k + 1) }, ?_, ?_⟩
            · rw [hs1]
              exact findObj_setName_self s i _ oi hoi
            · show topo.name ++ " Mesh " ++ decimalStr (k + 1) = _
              have : k + 0 + 1 = k + 1 := by omega
              rw [this]
        | succ j2 =>
            have hj2 : j2 < rest.length := by
              have := hj
              simp at this
              omega
            obtain ⟨o', ho1, ho2⟩ := hrec.2 j2 hj2
            refine ⟨o', ?_, ?_⟩
            · rw [hstep]
              have hget : (i :: rest).get ⟨j2 + 1, hj⟩ = rest.get ⟨j2, hj2⟩ := rfl
              rw [hget]
              exact ho1
            · rw [ho2]
              have : k + 1 + j2 + 1 = k + (j2 + 1) + 1 := by omega
              rw [this]

/- Identity lists through the stages, and the normalize/execute equations. -/

theorem ids_setParent (s : Scene) (i : Nat) (p : Option Nat) :
    (setParent s i p).map (fun o => o.oid) = s.map (fun o => o.oid) := by
  unfold setParent
  rw [List.map_map]
  apply List.map_congr_left
  intro o _
  show (if o.oid == i then { o with parent := p } else o).oid = o.oid
  cases h : (o.oid == i) <;> simp [h]

theorem ids_removeObj_sublist (s : Scene) (i : Nat) :
    ((removeObj s i).map (fun o => o.oid)).Sublist (s.map (fun o => o.oid)) := by
  unfold removeObj
  rw [List.map_map]
  have heq : (s.filter (fun o => o.oid != i)).map
      ((fun o => o.oid) ∘
        (fun o => if o.parent == some i then { o with parent := none } else o)) =
      (s.filter (fun o => o.oid != i)).map (fun o => o.oid) := by
    apply List.map_congr_left
    intro o _
    show (if o.parent == some i then { o with parent := none } else o).oid = o.oid
    cases h : (o.parent == some i) <;> simp [h]
  rw [heq]
  exact List.Sublist.map _ (List.filter_sublist s)

theorem ids_flattenStep_sublist (topId : Nat) (s : Scene) (i : Nat) :
    ((flattenStep topId s i).map (fun o => o.oid)).Sublist (s.map (fun o => o.oid)) := by
  unfold flattenStep
  cases hfi : findObj s i with
  | none => exact List.Sublist.refl _
  | some oi =>
      have h1 : ((if oi.otype == "MESH" then setParent s i (some topId) else s).map
          (fun o => o.oid)) = s.map (fun o => o.oid) := by
        cases hm : (oi.otype == "MESH") with
        | true => simp only [hm, if_true]; exact ids_setParent s i (some topId)
        | false => simp [hm]
      cases he : (oi.otype == "EMPTY") with
      | true =>
          simp only [he, if_true]
          exact h1 ▸ ids_removeObj_sublist _ i
      | false =>
          simp only [he, Bool.false_eq_true, if_false]
          exact h1 ▸ List.Sublist.refl _

theorem ids_flattenAll_sublist (topId : Nat) : ∀ (L : List Nat) (s : Scene),
    ((flattenAll topId s L).map (fun o => o.oid)).Sublist (s.map (fun o => o.oid)) := by
  intro L
  induction L with
  | nil => intro s; exact List.Sublist.refl _
  | cons i L ih =>
      intro s
      exact (ih (flattenStep topId s i)).trans (ids_flattenStep_sublist topId s i)

theorem normStage1_ids_nodup (s : Scene) (topId : Nat)
    (hn : (s.map (fun o => o.oid)).Nodup) :
    ((normStage1 s topId).map (fun o => o.oid)).Nodup :=
  List.Nodup.sublist (ids_flattenAll_sublist topId _ s) hn

theorem normStage2_skel (s : Scene) (topId : Nat) (itemNo : String) :
    ∃ f, MapsToSkel (normStage1 s topId) (normStage2 s topId itemNo) f :=
  tagAll_mapsTo _ _ _

theorem normStage24_names (s : Scene) (topId : Nat) (itemNo base : String) :
    ∃ f, MapsToNames (normStage2 s topId itemNo) (normStage4 s topId itemNo base) f := by
  obtain ⟨f3, h3⟩ := renameChildren_mapsTo
    ((children_recursive (normStage3 s topId itemNo base) topId).map (fun o => o.oid))
    topId (normStage3 s topId itemNo base)
  exact ⟨f3 ∘ _, mapsToNames_comp _ _ _ _ f3
    (setName_mapsTo (normStage2 s topId itemNo) topId
      (pickName (normStage2 s topId itemNo) base)) h3⟩

theorem normStage4_skel (s : Scene) (topId : Nat) (itemNo base : String) :
    ∃ f, MapsToSkel (normStage1 s topId) (normStage4 s topId itemNo base) f := by
  obtain ⟨f1, h1⟩ := normStage2_skel s topId itemNo
  obtain ⟨f2, h2⟩ := normStage24_names s topId itemNo base
  exact ⟨f2 ∘ f1, mapsToSkel_comp _ _ _ f1 f2 h1 h2.1⟩

/-- Running the normalization when the selection resolves, the climb
terminates and the PIP name is a string: all four stages run and no
exception escapes. -/
theorem executeNormalize_run (s : Scene) (selId : Nat) (selObj top : BObj)
    (itemNo : String) (pip : Json) (base : String)
    (hfind : findObj s selId = some selObj)
    (hclimb : climbTop s selObj (s.length + 1) = some top)
    (hname : pip.getKey "name" = .ok (.str base)) :
    executeNormalize s (some selId) itemNo pip =
      (normStage4 s top.oid itemNo base, none) := by
  unfold executeNormalize
  simp only [hfind, hclimb, hname]
  rfl

/-- Whatever happens after the climb, the scene the normalization returns is
the flattened scene transformed object-wise with identities, parents and
types intact. -/
theorem executeNormalize_scene_skel (s : Scene) (selId : Nat) (selObj top : BObj)
    (itemNo : String) (pip : Json)
    (hfind : findObj s selId = some selObj)
    (hclimb : climbTop s selObj (s.length + 1) = some top) :
    ∃ f, MapsToSkel (normStage1 s top.oid)
      ((executeNormalize s (some selId) itemNo pip).1) f := by
  unfold executeNormalize
  simp only [hfind, hclimb]
  cases hn : pip.getKey "name" with
  | error e => exact normStage2_skel s top.oid itemNo
  | ok v =>
      cases v with
      | str base => exact normStage4_skel s top.oid itemNo base
      | null => exact normStage2_skel s top.oid itemNo
      | bool b => exact normStage2_skel s top.oid itemNo
      | num n => exact normStage2_skel s top.oid itemNo
      | arr l => exact normStage2_skel s top.oid itemNo
      | obj l => exact normStage2_skel s top.oid itemNo

/-- The scene in the operator output is the scene the normalization
produced. -/
theorem execute_scene_after (w : IkeaApiWrapper) (net : Net)
    (usd : String → Scene → Scene × Option Nat) (fs fs1 fs2 : FS) (s s1 : Scene)
    (itemNo mpath : String) (pip : Json) (log1 log2 : List String) (sel : Option Nat)
    (hpip : w.get_pip net fs itemNo = (.ok pip, fs1, log1))
    (hmodel : w.get_model net fs1 itemNo = (.ok mpath, fs2, log2))
    (husd : usd mpath s = (s1, sel)) :
    (IkeaImportOperator.execute true w net usd fs s itemNo).scene =
      (executeNormalize s1 sel itemNo pip).1 := by
  unfold IkeaImportOperator.execute executeTry
  simp only [hpip, hmodel, husd, Bool.not_true, Bool.false_eq_true, if_false]
  rcases hres : executeNormalize s1 sel itemNo pip with ⟨sc, oe⟩
  cases oe with
  | none => simp
  | some e => cases e <;> simp

/-- A fully successful run of the operator. -/
theorem execute_success_eq (w : IkeaApiWrapper) (net : Net)
    (usd : String → Scene → Scene × Option Nat) (fs fs1 fs2 : FS) (s s1 sc : Scene)
    (itemNo mpath : String) (pip : Json) (log1 log2 : List String) (sel : Option Nat)
    (hpip : w.get_pip net fs itemNo = (.ok pip, fs1, log1))
    (hmodel : w.get_model net fs1 itemNo = (.ok mpath, fs2, log2))
    (husd : usd mpath s = (s1, sel))
    (hnorm : executeNormalize s1 sel itemNo pip = (sc, none)) :
    IkeaImportOperator.execute true w net usd fs s itemNo =
      { ret := .ok .FINISHED, reports := [], fs := fs2, scene := sc,
        fetched := log1 ++ log2 } := by
  unfold IkeaImportOperator.execute executeTry
  simp only [hpip, hmodel, husd, hnorm, Bool.not_true, Bool.false_eq_true, if_false]

/-- Claim C3: after `IkeaImportOperator.execute` imports an object tree
(with a resolvable selection, a terminating parent climb and unique object
identities, as Blender guarantees), every descendant of the top-level object
of type MESH ends up a direct child of the top-level object, and every
descendant of type EMPTY is removed from the scene data. -/
theorem import_flattens_hierarchy (w : IkeaApiWrapper) (net : Net)
    (usd : String → Scene → Scene × Option Nat) (fs fs1 fs2 : FS) (s s1 : Scene)
    (itemNo mpath : String) (pip : Json) (log1 log2 : List String)
    (selId : Nat) (selObj top : BObj)
    (hpip : w.get_pip net fs itemNo = (.ok pip, fs1, log1))
    (hmodel : w.get_model net fs1 itemNo = (.ok mpath, fs2, log2))
    (husd : usd mpath s = (s1, some selId))
    (hfind : findObj s1 selId = some selObj)
    (hclimb : climbTop s1 selObj (s1.length + 1) = some top)
    (hnodup : (s1.map (fun o => o.oid)).Nodup) :
    ∀ o ∈ children_recursive s1 top.oid,
      (o.otype = "MESH" → ∃ o',
        findObj (IkeaImportOperator.execute true w net usd fs s itemNo).scene o.oid =
          some o' ∧ o'.parent = some top.oid ∧ o'.otype = "MESH") ∧
      (o.otype = "EMPTY" →
        findObj (IkeaImportOperator.execute true w net usd fs s itemNo).scene o.oid =
          none) := by
  intro o ho
  have hsc := execute_scene_after w net usd fs fs1 fs2 s s1 itemNo mpath pip log1 log2
    (some selId) hpip hmodel husd
  obtain ⟨f, hf⟩ := executeNormalize_scene_skel s1 selId selObj top itemNo pip hfind hclimb
  have hsel_mem : selObj ∈ s1 := (findObj_eq_oid s1 selId selObj hfind).2
  obtain ⟨htm, htp⟩ := climbTop_props s1 (s1.length + 1) selObj top hsel_mem hclimb
  have hDnodup : ((children_recursive s1 top.oid).map (fun o => o.oid)).Nodup :=
    children_recursive_ids_nodup s1 hnodup top.oid
  have htopnot : top.oid ∉ (children_recursive s1 top.oid).map (fun o => o.oid) :=
    top_not_own_child s1 hnodup top htm htp
  have hos : o ∈ s1 := children_recursive_subset s1 top.oid o ho
  have hfo : findObj s1 o.oid = some o := findObj_of_mem_nodup s1 hnodup o hos
  have hoin : o.oid ∈ (children_recursive s1 top.oid).map (fun o => o.oid) :=
    List.mem_map_of_mem _ ho
  have hflat := flatten_spec top.oid ((children_recursive s1 top.oid).map (fun o => o.oid))
    s1 hDnodup htopnot o.oid hoin o hfo
  constructor
  · intro hmesh
    obtain ⟨o', h1, h2, h3, h4⟩ := hflat.1 hmesh
    refine ⟨f o', ?_, ?_, ?_⟩
    · rw [hsc, MapsToSkel.findObj_eq _ _ f hf o.oid]
      rw [show findObj (normStage1 s1 top.oid) o.oid = some o' from h1]
      rfl
    · rw [hf.2.2.1 o', h4]
    · rw [hf.2.2.2 o', h3]
  · intro hempty
    have h1 := hflat.2 hempty
    rw [hsc, MapsToSkel.findObj_eq _ _ f hf o.oid]
    rw [show findObj (normStage1 s1 top.oid) o.oid = none from h1]
    rfl

/-- Claim C2: after a successful run of `IkeaImportOperator.execute` (PIP and
model fetched, import selected an object, the climb terminates, identities
are unique and the PIP name is a string), the top-level object and every
object in its `children_recursive` subtree carry the custom property
`ikeaItemNo` equal to the operator's item number. -/
theorem import_tags_itemNo (w : IkeaApiWrapper) (net : Net)
    (usd : String → Scene → Scene × Option Nat) (fs fs1 fs2 : FS) (s s1 : Scene)
    (itemNo mpath base : String) (pip : Json) (log1 log2 : List String)
    (selId : Nat) (selObj top : BObj)
    (hpip : w.get_pip net fs itemNo = (.ok pip, fs1, log1))
    (hmodel : w.get_model net fs1 itemNo = (.ok mpath, fs2, log2))
    (husd : usd mpath s = (s1, some selId))
    (hfind : findObj s1 selId = some selObj)
    (hclimb : climbTop s1 selObj (s1.length + 1) = some top)
    (hnodup : (s1.map (fun o => o.oid)).Nodup)
    (hname : pip.getKey "name" = .ok (.str base)) :
    IkeaImportOperator.execute true w net usd fs s itemNo =
      { ret := .ok .FINISHED, reports := [], fs := fs2,
        scene := normStage4 s1 top.oid itemNo base, fetched := log1 ++ log2 } ∧
    (∃ topF, findObj (normStage4 s1 top.oid itemNo base) top.oid = some topF ∧
      topF.props.lookup "ikeaItemNo" = some itemNo) ∧
    ∀ o ∈ children_recursive (normStage4 s1 top.oid itemNo base) top.oid,
      o.props.lookup "ikeaItemNo" = some itemNo := by
  have hnorm := executeNormalize_run s1 selId selObj top itemNo pip base hfind hclimb hname
  have hexec := execute_success_eq w net usd fs fs1 fs2 s s1 _ itemNo mpath pip log1 log2
    (some selId) hpip hmodel husd hnorm
  have hsel_mem : selObj ∈ s1 := (findObj_eq_oid s1 selId selObj hfind).2
  obtain ⟨htm, htp⟩ := climbTop_props s1 (s1.length + 1) selObj top hsel_mem hclimb
  have htopnot : top.oid ∉ (children_recursive s1 top.oid).map (fun o => o.oid) :=
    top_not_own_child s1 hnodup top htm htp
  have hftop1 : findObj (normStage1 s1 top.oid) top.oid = some top := by
    apply flatten_stable top.oid _ s1 top.oid top
      (findObj_of_mem_nodup s1 hnodup top htm) htopnot
    intro q hq
    rw [htp] at hq
    cases hq
  have hnodup1 : ((normStage1 s1 top.oid).map (fun o => o.oid)).Nodup :=
    normStage1_ids_nodup s1 top.oid hnodup
  obtain ⟨f1, hf1⟩ := normStage2_skel s1 top.oid itemNo
  obtain ⟨g, hg⟩ := normStage24_names s1 top.oid itemNo base
  -- the top object is tagged in stage 2
  obtain ⟨topT, hT1, hT2⟩ := tagAll_tags
    (top.oid :: (children_recursive (normStage1 s1 top.oid) top.oid).map (fun o => o.oid))
    (normStage1 s1 top.oid) itemNo top.oid top hftop1 (List.mem_cons_self _ _)
  have hT1n : findObj (normStage2 s1 top.oid itemNo) top.oid = some topT := hT1
  refine ⟨hexec, ⟨g topT, ?_, ?_⟩, ?_⟩
  · rw [MapsToSkel.findObj_eq _ _ g hg.1 top.oid, hT1n]
    rfl
  · rw [hg.2 topT]
    exact hT2
  · intro o ho
    rw [MapsToSkel.children_eq _ _ g hg.1 top.oid] at ho
    obtain ⟨od, hod, rfl⟩ := List.mem_map.mp ho
    rw [hg.2 od]
    have hod2 : od ∈ children_recursive (normStage2 s1 top.oid itemNo) top.oid := hod
    rw [MapsToSkel.children_eq _ _ f1 hf1 top.oid] at hod2
    obtain ⟨od1, hod1, rfl⟩ := List.mem_map.mp hod2
    have hod1mem : od1 ∈ normStage1 s1 top.oid :=
      children_recursive_subset _ top.oid od1 hod1
    have hfod1 : findObj (normStage1 s1 top.oid) od1.oid = some od1 :=
      findObj_of_mem_nodup _ hnodup1 od1 hod1mem
    obtain ⟨ot, hot1, hot2⟩ := tagAll_tags
      (top.oid :: (children_recursive (normStage1 s1 top.oid) top.oid).map
        (fun o => o.oid))
      (normStage1 s1 top.oid) itemNo od1.oid od1 hfod1
      (List.mem_cons_of_mem _ (List.mem_map_of_mem _ hod1))
    have hfb : findObj (normStage2 s1 top.oid itemNo) od1.oid = some (f1 od1) := by
      rw [MapsToSkel.findObj_eq _ _ f1 hf1 od1.oid, hfod1]
      rfl
    have hoteq : ot = f1 od1 := by
      have h2 : findObj (normStage2 s1 top.oid itemNo) od1.oid = some ot := hot1
      rw [hfb] at h2
      exact (Option.some.injEq _ _ ▸ h2).symm
    rw [← hoteq]
    exact hot2

/-- Claim C4: in a successful run, the top object is renamed to the first
name of the sequence `name`, `name (2)`, `name (3)`, ... (decimal numbering)
that no object of the scene carries at the time of the check, and the k
children in the `children_recursive` snapshot are then renamed, in order, to
`<top name> Mesh 1` .. `<top name> Mesh k`. -/
theorem import_renames (w : IkeaApiWrapper) (net : Net)
    (usd : String → Scene → Scene × Option Nat) (fs fs1 fs2 : FS) (s s1 : Scene)
    (itemNo mpath base : String) (pip : Json) (log1 log2 : List String)
    (selId : Nat) (selObj top : BObj)
    (hpip : w.get_pip net fs itemNo = (.ok pip, fs1, log1))
    (hmodel : w.get_model net fs1 itemNo = (.ok mpath, fs2, log2))
    (husd : usd mpath s = (s1, some selId))
    (hfind : findObj s1 selId = some selObj)
    (hclimb : climbTop s1 selObj (s1.length + 1) = some top)
    (hnodup : (s1.map (fun o => o.oid)).Nodup)
    (hname : pip.getKey "name" = .ok (.str base)) :
    IkeaImportOperator.execute true w net usd fs s itemNo =
      { ret := .ok .FINISHED, reports := [], fs := fs2,
        scene := normStage4 s1 top.oid itemNo base, fetched := log1 ++ log2 } ∧
    ∃ k, pickName (normStage2 s1 top.oid itemNo) base = candName base k ∧
      (getByName (normStage2 s1 top.oid itemNo) (candName base k)).isSome = false ∧
      (∀ t, t < k →
        (getByName (normStage2 s1 top.oid itemNo) (candName base t)).isSome = true) ∧
      ∃ topF, findObj (normStage4 s1 top.oid itemNo base) top.oid = some topF ∧
        topF.name = candName base k ∧
        ∀ (j : Nat) (hj : j < ((children_recursive (normStage3 s1 top.oid itemNo base)
            top.oid).map (fun o => o.oid)).length),
          ∃ o', findObj (normStage4 s1 top.oid itemNo base)
              (((children_recursive (normStage3 s1 top.oid itemNo base) top.oid).map
                (fun o => o.oid)).get ⟨j, hj⟩) = some o' ∧
            o'.name = topF.name ++ " Mesh " ++ decimalStr (j + 1) := by
  have hnorm := executeNormalize_run s1 selId selObj top itemNo pip base hfind hclimb hname
  have hexec := execute_success_eq w net usd fs fs1 fs2 s s1 _ itemNo mpath pip log1 log2
    (some selId) hpip hmodel husd hnorm
  have hsel_mem : selObj ∈ s1 := (findObj_eq_oid s1 selId selObj hfind).2
  obtain ⟨htm, htp⟩ := climbTop_props s1 (s1.length + 1) selObj top hsel_mem hclimb
  have htopnot : top.oid ∉ (children_recursive s1 top.oid).map (fun o => o.oid) :=
    top_not_own_child s1 hnodup top htm htp
  have hftop1 : findObj (normStage1 s1 top.oid) top.oid = some top := by
    apply flatten_stable top.oid _ s1 top.oid top
      (findObj_of_mem_nodup s1 hnodup top htm) htopnot
    intro q hq
    rw [htp] at hq
    cases hq
  have hnodup1 : ((normStage1 s1 top.oid).map (fun o => o.oid)).Nodup :=
    normStage1_ids_nodup s1 top.oid hnodup
  obtain ⟨f1, hf1⟩ := normStage2_skel s1 top.oid itemNo
  obtain ⟨k, hk1, hk2, hk3⟩ := pickName_spec (normStage2 s1 top.oid itemNo) base
  have hT1b : findObj (normStage2 s1 top.oid itemNo) top.oid = some (f1 top) := by
    rw [MapsToSkel.findObj_eq _ _ f1 hf1 top.oid, hftop1]
    rfl
  have hT3 : findObj (normStage3 s1 top.oid itemNo base) top.oid =
      some { f1 top with name := pickName (normStage2 s1 top.oid itemNo) base } :=
    findObj_setName_self (normStage2 s1 top.oid itemNo) top.oid _ (f1 top) hT1b
  have hids2 : (normStage2 s1 top.oid itemNo).map (fun o => o.oid) =
      (normStage1 s1 top.oid).map (fun o => o.oid) :=
    MapsToSkel.ids_eq _ _ f1 hf1
  have hids3 : (normStage3 s1 top.oid itemNo base).map (fun o => o.oid) =
      (normStage2 s1 top.oid itemNo).map (fun o => o.oid) :=
    MapsToSkel.ids_eq _ _ _ (setName_mapsTo (normStage2 s1 top.oid itemNo) top.oid
      (pickName (normStage2 s1 top.oid itemNo) base)).1
  have hnodup3 : ((normStage3 s1 top.oid itemNo base).map (fun o => o.oid)).Nodup := by
    rw [hids3, hids2]
    exact hnodup1
  have hparentN : ({ f1 top with name := pickName (normStage2 s1 top.oid itemNo) base } : BObj).parent = none := by
    show (f1 top).parent = none
    rw [hf1.2.2.1 top]
    exact htp
  have htopmem3 := (findObj_eq_oid _ _ _ hT3).2
  have hoidN := (findObj_eq_oid _ _ _ hT3).1
  have hnotin : top.oid ∉ ((children_recursive (normStage3 s1 top.oid itemNo base)
      top.oid).map (fun o => o.oid)) := by
    have h2 := top_not_own_child (normStage3 s1 top.oid itemNo base) hnodup3 _
      htopmem3 hparentN
    rw [hoidN] at h2
    exact h2
  have hcnodup : ((children_recursive (normStage3 s1 top.oid itemNo base) top.oid).map
      (fun o => o.oid)).Nodup :=
    children_recursive_ids_nodup _ hnodup3 top.oid
  have hmem : ∀ i ∈ ((children_recursive (normStage3 s1 top.oid itemNo base) top.oid).map
      (fun o => o.oid)), (findObj (normStage3 s1 top.oid itemNo base) i).isSome = true := by
    intro i hi
    obtain ⟨oc, hoc, rfl⟩ := List.mem_map.mp hi
    rw [findObj_of_mem_nodup _ hnodup3 oc (children_recursive_subset _ top.oid oc hoc)]
    rfl
  have hren := renameLoop_names top.oid
    { f1 top with name := pickName (normStage2 s1 top.oid itemNo) base }
    ((children_recursive (normStage3 s1 top.oid itemNo base) top.oid).map (fun o => o.oid))
    0 (normStage3 s1 top.oid itemNo base) hcnodup hnotin hT3 hmem
  refine ⟨hexec, k, hk1, hk2, hk3,
    { f1 top with name := pickName (normStage2 s1 top.oid itemNo) base }, ?_, ?_, ?_⟩
  · exact hren.1
  · show pickName (normStage2 s1 top.oid itemNo) base = candName base k
    exact hk1
  · intro j hj
    obtain ⟨o', h1, h2⟩ := hren.2 j hj
    refine ⟨o', h1, ?_⟩
    rw [h2]
    have hidx : 0 + j + 1 = j + 1 := by omega
    rw [hidx]

/-- Witness for `import_tags_itemNo`: in the concrete import scenario the
operator finishes and the top object of the normalized scene carries
`ikeaItemNo = "123"`. -/
theorem import_tags_itemNo_witness :
    (findObj (normStage4 sceneImp 1 "123" "STOL") 1).map
      (fun o => o.props.lookup "ikeaItemNo") = some (some "123") ∧
    (IkeaImportOperator.execute true wEx netFull usdEx fsEmpty [] "123").ret =
      .ok .FINISHED := by
  have h := import_tags_itemNo wEx netFull usdEx fsEmpty fs1E fs2E [] sceneImp
    "123" (modelCachePath wEx "123") "STOL" pipJsonEx log1E log2E 2 objSel objTop
    rfl rfl rfl rfl rfl (by decide) rfl
  obtain ⟨hex, ⟨topF, h1, h2⟩, -⟩ := h
  have h1b : findObj (normStage4 sceneImp 1 "123" "STOL") 1 = some topF := h1
  have hexb : IkeaImportOperator.execute true wEx netFull usdEx fsEmpty [] "123" =
      { ret := .ok .FINISHED, reports := [], fs := fs2E,
        scene := normStage4 sceneImp 1 "123" "STOL", fetched := log1E ++ log2E } := hex
  constructor
  · rw [h1b]
    exact congrArg some h2
  · rw [hexb]

/-- Witness for `import_flattens_hierarchy`: in the concrete scenario, mesh 3
ends up a direct child of top object 1 and the empty node 2 is gone. -/
theorem import_flattens_hierarchy_witness :
    (findObj (IkeaImportOperator.execute true wEx netFull usdEx fsEmpty [] "123").scene
      3).map (fun o => (o.parent, o.otype)) = some (some 1, "MESH") ∧
    findObj (IkeaImportOperator.execute true wEx netFull usdEx fsEmpty [] "123").scene
      2 = none := by
  have h := import_flattens_hierarchy wEx netFull usdEx fsEmpty fs1E fs2E [] sceneImp
    "123" (modelCachePath wEx "123") pipJsonEx log1E log2E 2 objSel objTop
    rfl rfl rfl rfl rfl (by decide)
  obtain ⟨o', ho1, ho2, ho3⟩ :=
    (h (⟨3, "A", "MESH", some 2, []⟩ : BObj) (by decide)).1 rfl
  have h2e := (h (⟨2, "Meshes", "EMPTY", some 1, []⟩ : BObj) (by decide)).2 rfl
  have ho1b : findObj
      (IkeaImportOperator.execute true wEx netFull usdEx fsEmpty [] "123").scene 3 =
      some o' := ho1
  constructor
  · rw [ho1b]
    have : (o'.parent, o'.otype) = (some 1, "MESH") := by
      rw [ho2, ho3]
      rfl
    exact congrArg some this
  · exact h2e

/-- Witness for `import_renames`: in the concrete scenario no object carries
the PIP name, so the top object becomes `STOL` and the first child becomes
`STOL Mesh 1`. -/
theorem import_renames_witness :
    (findObj (normStage4 sceneImp 1 "123" "STOL") 1).map (fun o => o.name) =
      some "STOL" ∧
    (findObj (normStage4 sceneImp 1 "123" "STOL") 3).map (fun o => o.name) =
      some ("STOL" ++ " Mesh " ++ decimalStr 1) := by
  have h := import_renames wEx netFull usdEx fsEmpty fs1E fs2E [] sceneImp
    "123" (modelCachePath wEx "123") "STOL" pipJsonEx log1E log2E 2 objSel objTop
    rfl rfl rfl rfl rfl (by decide) rfl
  obtain ⟨-, k, hk1, hk2, hk3, topF, ht1, ht2, hch⟩ := h
  have hk0 : k = 0 := by
    by_contra hne
    have htaken := hk3 0 (Nat.pos_of_ne_zero hne)
    have hfree : (getByName (normStage2 sceneImp 1 "123") (candName "STOL" 0)).isSome =
        false := by decide
    have htaken2 : (getByName (normStage2 sceneImp 1 "123") (candName "STOL" 0)).isSome =
        true := htaken
    rw [htaken2] at hfree
    cases hfree
  have hname : topF.name = "STOL" := by
    rw [ht2, hk0]
    rfl
  have ht1b : findObj (normStage4 sceneImp 1 "123" "STOL") 1 = some topF := ht1
  constructor
  · rw [ht1b]
    exact congrArg some hname
  · have hj : (0 : Nat) < ((children_recursive (normStage3 sceneImp 1 "123" "STOL")
        1).map (fun o => o.oid)).length := by decide
    obtain ⟨o', hc1, hc2⟩ := hch 0 hj
    have hc1b : findObj (normStage4 sceneImp 1 "123" "STOL") 3 = some o' := hc1
    rw [hc1b]
    have : o'.name = "STOL" ++ " Mesh " ++ decimalStr 1 := by
      rw [hc2, hname]
    exact congrArg some this
